import Mathlib

/-!
Verification of the TripWeather route temporal-sampling and segment-coloring
pipeline (`api.js`).

The JavaScript numbers are modelled by an arbitrary linear ordered field `K`
(with a floor, for `Math.floor`); the four algorithmic functions are translated
parametrically in the distance function `dist`, and the program itself is the
instance at `K = ℝ` with `dist = haversineDistance` (trigonometric, hence the
real numbers).  Timestamps (`Date`) are modelled as field elements counting
milliseconds, `getTime` being the identity.
-/

namespace TripWeather

/-- A weather observation: `{temperature, precipitation, weatherCode}`. -/
structure Weather (K : Type) where
  temperature : K
  precipitation : K
  weatherCode : ℤ
deriving DecidableEq

/-- A sample produced by `sampleRoutePoints`:
`{lat, lon, time, geometryIndex, isStart, isEnd}`.  Absent JS fields
(`isStart`/`isEnd` not set) are modelled as `false`. -/
structure SamplePoint (K : Type) where
  lat : K
  lon : K
  time : K
  geometryIndex : ℕ
  isStart : Bool
  isEnd : Bool
deriving DecidableEq

/-- The reason strings attached by `filterSignificantWeatherPoints`. -/
inductive Reason where
  | trip_start
  | trip_end
  | rain_start
  | rain_end
  | temp_change
  | weather_change
  | interval
deriving DecidableEq

/-- A weather-annotated sample point, input and output of
`filterSignificantWeatherPoints` and input of `createRouteSegments`:
a `SamplePoint` extended with `weather` and the optional `significantReason`. -/
structure WPoint (K : Type) where
  lat : K
  lon : K
  time : K
  geometryIndex : ℕ
  isStart : Bool
  isEnd : Bool
  weather : Option (Weather K)
  significantReason : Option Reason
deriving DecidableEq

/-- A colored route segment.  The fallback segment carries the literal
`precipitation: 0` field of the source and no `weather`; loop-created segments
carry `weather` and no `precipitation`. -/
structure RouteSegment (K : Type) where
  positions : List (K × K)
  color : String
  weather : Option (Weather K)
  precipitation : Option K
deriving DecidableEq

/-- `Math.atan2 y x`, via the complex argument (Mathlib's `Complex.arg` has
exactly the `atan2` case analysis). -/
noncomputable def atan2 (y x : ℝ) : ℝ := Complex.arg { re := x, im := y }

/-- `haversineDistance(lat1, lon1, lat2, lon2)` from the source: great-circle
distance in km, Earth radius 6371 km. -/
noncomputable def haversineDistance (lat1 lon1 lat2 lon2 : ℝ) : ℝ :=
  let R : ℝ := 6371
  let dLat := (lat2 - lat1) * Real.pi / 180
  let dLon := (lon2 - lon1) * Real.pi / 180
  let a := Real.sin (dLat / 2) * Real.sin (dLat / 2) +
    Real.cos (lat1 * Real.pi / 180) * Real.cos (lat2 * Real.pi / 180) *
    Real.sin (dLon / 2) * Real.sin (dLon / 2)
  let c := 2 * atan2 (Real.sqrt a) (Real.sqrt (1 - a))
  R * c

lemma atan2_nonneg {y x : ℝ} (hy : 0 ≤ y) : 0 ≤ atan2 y x := by
  unfold atan2
  exact Complex.arg_nonneg_iff.mpr hy

lemma haversineDistance_nonneg (lat1 lon1 lat2 lon2 : ℝ) :
    0 ≤ haversineDistance lat1 lon1 lat2 lon2 := by
  unfold haversineDistance
  have h := atan2_nonneg (x := Real.sqrt (1 - (Real.sin (((lat2 - lat1) * Real.pi / 180) / 2) *
      Real.sin (((lat2 - lat1) * Real.pi / 180) / 2) +
      Real.cos (lat1 * Real.pi / 180) * Real.cos (lat2 * Real.pi / 180) *
      Real.sin (((lon2 - lon1) * Real.pi / 180) / 2) *
      Real.sin (((lon2 - lon1) * Real.pi / 180) / 2))))
    (Real.sqrt_nonneg (Real.sin (((lat2 - lat1) * Real.pi / 180) / 2) *
      Real.sin (((lat2 - lat1) * Real.pi / 180) / 2) +
      Real.cos (lat1 * Real.pi / 180) * Real.cos (lat2 * Real.pi / 180) *
      Real.sin (((lon2 - lon1) * Real.pi / 180) / 2) *
      Real.sin (((lon2 - lon1) * Real.pi / 180) / 2)))
  positivity

/-- `atan2 0 1 = 0` (the argument of the complex number 1). -/
lemma atan2_zero_one : atan2 0 1 = 0 := by
  unfold atan2
  have : ({ re := 1, im := 0 } : ℂ) = 1 := by
    apply Complex.ext <;> simp
  rw [this, Complex.arg_one]

/-- `atan2 1 0 = π/2` (the argument of the complex number I). -/
lemma atan2_one_zero : atan2 1 0 = Real.pi / 2 := by
  unfold atan2
  have : ({ re := 0, im := 1 } : ℂ) = Complex.I := by
    apply Complex.ext <;> simp
  rw [this, Complex.arg_I]

/-- The haversine distance between coincident points at the origin is zero. -/
lemma haversineDistance_zero : haversineDistance 0 0 0 0 = 0 := by
  unfold haversineDistance
  simp [atan2_zero_one]

/-- The haversine distance from `(0,0)` to `(0,180)` is `6371 π` (half the
equator). -/
lemma haversineDistance_antipodal : haversineDistance 0 0 0 180 = 6371 * Real.pi := by
  unfold haversineDistance
  have h180 : (180 - 0 : ℝ) * Real.pi / 180 = Real.pi := by ring
  rw [h180]
  simp only [sub_zero, zero_sub, neg_zero, zero_mul, mul_zero, zero_div, Real.sin_zero,
    Real.cos_zero, one_mul, mul_one, zero_add, Real.sin_pi_div_two]
  norm_num [atan2_one_zero]
  ring

section Generic

variable {K : Type} [LinearOrderedField K]

/-- Tail of the cumulative-distance loop: given the previous point and the
accumulated distance, emits the table entries for the remaining points. -/
def cumAux (dist : K → K → K → K → K) : K × K → List (K × K) → K → List K
  | _, [], _ => []
  | prev, p :: ps, acc =>
      (acc + dist prev.1 prev.2 p.1 p.2) ::
        cumAux dist p ps (acc + dist prev.1 prev.2 p.1 p.2)

/-- The cumulative-distance table of the source (`let cumulativeDistances =
[0]; for (i = 1; i < geometry.length; i++) ... push(prev + dist)`).  Note the
source seeds the table with `[0]` even for an empty geometry. -/
def cumulativeDistances (dist : K → K → K → K → K) : List (K × K) → List K
  | [] => [0]
  | p :: ps => 0 :: cumAux dist p ps 0

lemma cumAux_length (dist : K → K → K → K → K) (prev : K × K) (ps : List (K × K)) (acc : K) :
    (cumAux dist prev ps acc).length = ps.length := by
  induction ps generalizing prev acc with
  | nil => rfl
  | cons p ps ih => simp [cumAux, ih]

lemma cumulativeDistances_length (dist : K → K → K → K → K) (g : List (K × K)) (h : g ≠ []) :
    (cumulativeDistances dist g).length = g.length := by
  cases g with
  | nil => exact absurd rfl h
  | cons p ps => simp [cumulativeDistances, cumAux_length]

lemma cumulativeDistances_ne_nil (dist : K → K → K → K → K) (g : List (K × K)) :
    cumulativeDistances dist g ≠ [] := by
  cases g <;> simp [cumulativeDistances]

lemma cumulativeDistances_head (dist : K → K → K → K → K) (g : List (K × K)) :
    (cumulativeDistances dist g).head? = some 0 := by
  cases g <;> simp [cumulativeDistances]

/-- Each entry of `cumAux` relative to its predecessor (`getD` view, with the
seed value supplied for index `-1`). -/
lemma cumAux_getD_succ (dist : K → K → K → K → K) (prev : K × K) (ps : List (K × K)) (acc : K)
    (i : ℕ) (hi : i + 1 < ps.length) :
    (cumAux dist prev ps acc).getD (i + 1) 0 =
      (cumAux dist prev ps acc).getD i 0 +
        dist (ps.getD i (0, 0)).1 (ps.getD i (0, 0)).2
          (ps.getD (i + 1) (0, 0)).1 (ps.getD (i + 1) (0, 0)).2 := by
  induction ps generalizing prev acc i with
  | nil => simp at hi
  | cons p ps ih =>
      cases i with
      | zero =>
          cases ps with
          | nil => simp at hi
          | cons q qs => simp [cumAux]
      | succ j =>
          have hj : j + 1 < ps.length := by simpa using hi
          simpa [cumAux] using ih p (acc + dist prev.1 prev.2 p.1 p.2) j hj

/-- The recurrence `table[i+1] = table[i] + dist(poly[i], poly[i+1])`. -/
lemma cumulativeDistances_getD_succ (dist : K → K → K → K → K) (g : List (K × K))
    (i : ℕ) (hi : i + 1 < g.length) :
    (cumulativeDistances dist g).getD (i + 1) 0 =
      (cumulativeDistances dist g).getD i 0 +
        dist (g.getD i (0, 0)).1 (g.getD i (0, 0)).2
          (g.getD (i + 1) (0, 0)).1 (g.getD (i + 1) (0, 0)).2 := by
  cases g with
  | nil => simp at hi
  | cons p ps =>
      cases i with
      | zero =>
          cases ps with
          | nil => simp at hi
          | cons q qs => simp [cumulativeDistances, cumAux]
      | succ j =>
          have hj : j + 1 < ps.length := by simpa using hi
          simpa [cumulativeDistances] using cumAux_getD_succ dist p ps 0 j hj

lemma cumAux_chain (dist : K → K → K → K → K)
    (hd : ∀ a b c d, 0 ≤ dist a b c d) (prev : K × K) (ps : List (K × K)) (acc : K) :
    List.Chain' (· ≤ ·) (acc :: cumAux dist prev ps acc) := by
  induction ps generalizing prev acc with
  | nil => simp [cumAux]
  | cons p ps ih =>
      refine List.Chain'.cons ?_ (ih p (acc + dist prev.1 prev.2 p.1 p.2))
      have := hd prev.1 prev.2 p.1 p.2
      linarith

/-- With a nonnegative distance function the table is monotonically
non-decreasing. -/
lemma cumulativeDistances_chain (dist : K → K → K → K → K)
    (hd : ∀ a b c d, 0 ≤ dist a b c d) (g : List (K × K)) :
    List.Chain' (· ≤ ·) (cumulativeDistances dist g) := by
  cases g with
  | nil => exact List.chain'_singleton _
  | cons p ps => simpa [cumulativeDistances] using cumAux_chain dist hd p ps 0

lemma cumulativeDistances_pairwise (dist : K → K → K → K → K)
    (hd : ∀ a b c d, 0 ≤ dist a b c d) (g : List (K × K)) :
    List.Pairwise (· ≤ ·) (cumulativeDistances dist g) :=
  List.chain'_iff_pairwise.mp (cumulativeDistances_chain dist hd g)

end Generic

section Generic2

variable {α : Type}

/-- JavaScript `Array.prototype.findIndex`: the first index whose element
satisfies the predicate, or `-1` when none does. -/
def jsFindIndex (p : α → Bool) : List α → ℤ
  | [] => -1
  | a :: as =>
      if p a then 0
      else if jsFindIndex p as < 0 then -1 else jsFindIndex p as + 1

lemma jsFindIndex_ge_neg_one (p : α → Bool) (l : List α) : -1 ≤ jsFindIndex p l := by
  induction l with
  | nil => simp [jsFindIndex]
  | cons a as ih =>
      simp only [jsFindIndex]
      split
      · norm_num
      · split
        · omega
        · omega

lemma jsFindIndex_lt_length (p : α → Bool) (l : List α) :
    jsFindIndex p l < (l.length : ℤ) := by
  induction l with
  | nil => simp [jsFindIndex]
  | cons a as ih =>
      simp only [jsFindIndex, List.length_cons]
      split
      · push_cast; omega
      · split
        · push_cast; omega
        · push_cast; omega

lemma jsFindIndex_eq_neg_one_iff (p : α → Bool) (l : List α) :
    jsFindIndex p l = -1 ↔ ∀ a ∈ l, p a = false := by
  induction l with
  | nil => simp [jsFindIndex]
  | cons a as ih =>
      have hge := jsFindIndex_ge_neg_one p as
      simp only [jsFindIndex, List.mem_cons]
      constructor
      · intro h b hb
        by_cases hpa : p a = true
        · rw [if_pos hpa] at h; omega
        · rw [if_neg hpa] at h
          rcases hb with rfl | hb
          · simpa using hpa
          · refine (ih.mp ?_) b hb
            split at h
            · omega
            · omega
      · intro h
        have hpa : p a = false := h a (Or.inl rfl)
        have has : jsFindIndex p as = -1 := ih.mpr fun b hb => h b (Or.inr hb)
        rw [if_neg (by simp [hpa]), if_pos (by omega)]

lemma jsFindIndex_nonneg_of_mem (p : α → Bool) (l : List α) (a : α) (ha : a ∈ l)
    (hpa : p a = true) : 0 ≤ jsFindIndex p l := by
  rcases lt_or_ge (jsFindIndex p l) 0 with h | h
  · have hge := jsFindIndex_ge_neg_one p l
    have heq : jsFindIndex p l = -1 := by omega
    have := (jsFindIndex_eq_neg_one_iff p l).mp heq a ha
    simp [hpa] at this
  · exact h

/-- `findIndex` of a `cons` is 0 exactly when the head satisfies the
predicate. -/
lemma jsFindIndex_cons_eq_zero_iff (p : α → Bool) (a : α) (l : List α) :
    jsFindIndex p (a :: l) = 0 ↔ p a = true := by
  have hge := jsFindIndex_ge_neg_one p l
  simp only [jsFindIndex]
  constructor
  · intro h
    by_cases hpa : p a = true
    · exact hpa
    · rw [if_neg hpa] at h
      split at h <;> omega
  · intro h
    rw [if_pos h]

lemma jsFindIndex_cons_of_not (p : α → Bool) (a : α) (l : List α)
    (hpa : ¬ p a = true) (hfound : 0 ≤ jsFindIndex p l) :
    jsFindIndex p (a :: l) = jsFindIndex p l + 1 := by
  simp only [jsFindIndex]
  rw [if_neg hpa, if_neg (by omega)]

/-- A weaker predicate is satisfied no later: if `q x` implies `p x`
pointwise and `q` is found, then `p` is found, at an index no greater. -/
lemma jsFindIndex_mono (p q : α → Bool) (l : List α)
    (himp : ∀ a, q a = true → p a = true) (hq : 0 ≤ jsFindIndex q l) :
    0 ≤ jsFindIndex p l ∧ jsFindIndex p l ≤ jsFindIndex q l := by
  induction l with
  | nil => simp [jsFindIndex] at hq
  | cons a as ih =>
      have hgq := jsFindIndex_ge_neg_one q as
      have hgp := jsFindIndex_ge_neg_one p as
      by_cases hpa : p a = true
      · have h0 : jsFindIndex p (a :: as) = 0 :=
          (jsFindIndex_cons_eq_zero_iff p a as).mpr hpa
        exact ⟨by omega, by omega⟩
      · have hqa : ¬ q a = true := fun hqa => hpa (himp a hqa)
        have hq' : 0 ≤ jsFindIndex q as := by
          simp only [jsFindIndex] at hq
          rw [if_neg hqa] at hq
          split at hq <;> omega
        obtain ⟨h1, h2⟩ := ih hq'
        rw [jsFindIndex_cons_of_not p a as hpa h1, jsFindIndex_cons_of_not q a as hqa hq']
        omega

end Generic2

section Sampler

variable {K : Type} [LinearOrderedField K] [FloorRing K]

/-- The sampler's segment-index search for elapsed-time step `i`:
`findIndex(d => d >= targetDistance)`, then `if (segmentIndex <= 0)
segmentIndex = 1`. -/
def sampleSegIndex (cum : List K) (total D s : K) (i : ℕ) : ℤ :=
  let targetDistance := ((i : K) * s / D) * total
  let raw := jsFindIndex (fun d => decide (targetDistance ≤ d)) cum
  if raw ≤ 0 then 1 else raw

/-- One interval sample of `sampleRoutePoints` (loop body for step `i ≥ 1`):
linear interpolation within the bracketing polyline segment. -/
def intervalSample (g : List (K × K)) (cum : List K) (total D t0 s : K) (i : ℕ) :
    SamplePoint K :=
  let elapsed := (i : K) * s
  let targetDistance := (elapsed / D) * total
  let segmentIndex := sampleSegIndex cum total D s i
  let segmentStart := cum.getD (segmentIndex - 1).toNat 0
  let segmentEnd := cum.getD segmentIndex.toNat 0
  let segmentProgress :=
    if segmentStart < segmentEnd then (targetDistance - segmentStart) / (segmentEnd - segmentStart)
    else 0
  let pPrev := g.getD (segmentIndex - 1).toNat (0, 0)
  let pCur := g.getD segmentIndex.toNat (0, 0)
  { lat := pPrev.1 + segmentProgress * (pCur.1 - pPrev.1),
    lon := pPrev.2 + segmentProgress * (pCur.2 - pPrev.2),
    time := t0 + elapsed * 1000,
    geometryIndex := segmentIndex.toNat,
    isStart := false,
    isEnd := false }

/-- `sampleRoutePoints(geometry, totalDuration, startTime, intervalMinutes)`
from the source, parametric in the distance function.  Timestamps are
milliseconds (`Date.getTime`), so `new Date(startTime.getTime() + elapsed *
1000)` becomes `t0 + elapsed * 1000`. -/
def sampleRoutePoints (dist : K → K → K → K → K) (geometry : List (K × K))
    (totalDuration t0 intervalMinutes : K) : List (SamplePoint K) :=
  let intervalSeconds := intervalMinutes * 60
  let numIntervals : ℕ := (⌊totalDuration / intervalSeconds⌋).toNat
  let cum := cumulativeDistances dist geometry
  let total := cum.getLastD 0
  let startP : SamplePoint K :=
    { lat := (geometry.headD (0, 0)).1, lon := (geometry.headD (0, 0)).2,
      time := t0, geometryIndex := 0, isStart := true, isEnd := false }
  let pts := startP ::
    (List.range numIntervals).map
      (fun k => intervalSample geometry cum total totalDuration t0 intervalSeconds (k + 1))
  let lastGeometry := geometry.getLastD (0, 0)
  let endTime := t0 + totalDuration * 1000
  let lastPoint := pts.getLast (List.cons_ne_nil _ _)
  if 2 < dist lastPoint.lat lastPoint.lon lastGeometry.1 lastGeometry.2 then
    pts ++ [{ lat := lastGeometry.1, lon := lastGeometry.2, time := endTime,
              geometryIndex := geometry.length - 1, isStart := false, isEnd := true }]
  else
    pts.dropLast ++ [{ lastPoint with
      lat := lastGeometry.1, lon := lastGeometry.2, time := endTime,
      geometryIndex := geometry.length - 1, isEnd := true }]

end Sampler

section SamplerShape

set_option linter.unusedSectionVars false

variable {K : Type} [LinearOrderedField K] [FloorRing K]

/-- The all-zero sample point, used as `getD` default. -/
def noSample : SamplePoint K := ⟨0, 0, 0, 0, false, false⟩

lemma intervalSample_time (g : List (K × K)) (cum : List K) (total D t0 s : K) (i : ℕ) :
    (intervalSample g cum total D t0 s i).time = t0 + (i : K) * s * 1000 := rfl

lemma intervalSample_isStart (g : List (K × K)) (cum : List K) (total D t0 s : K) (i : ℕ) :
    (intervalSample g cum total D t0 s i).isStart = false := rfl

lemma intervalSample_isEnd (g : List (K × K)) (cum : List K) (total D t0 s : K) (i : ℕ) :
    (intervalSample g cum total D t0 s i).isEnd = false := rfl

lemma intervalSample_geometryIndex (g : List (K × K)) (cum : List K) (total D t0 s : K)
    (i : ℕ) :
    (intervalSample g cum total D t0 s i).geometryIndex =
      (sampleSegIndex cum total D s i).toNat := rfl

lemma cons_map_range_getD {α : Type} (x d : α) (f : ℕ → α) (N i : ℕ) (hi : i < N + 1) :
    (x :: (List.range N).map (fun k => f (k + 1))).getD i d = if i = 0 then x else f i := by
  cases i with
  | zero => simp
  | succ k =>
      have hk : k < N := by omega
      simp only [List.getD_cons_succ]
      rw [List.getD_eq_getElem _ _ (by simpa using hk)]
      simp [hk]

lemma cons_map_range_getLast {α : Type} (x : α) (f : ℕ → α) (N : ℕ) (hN : 0 < N) :
    (x :: (List.range N).map (fun k => f (k + 1))).getLast (List.cons_ne_nil _ _) = f N := by
  rw [List.getLast_eq_getElem]
  have hlen : (x :: (List.range N).map (fun k => f (k + 1))).length = N + 1 := by simp
  have h1 : (x :: (List.range N).map (fun k => f (k + 1))).length - 1 = N := by omega
  rcases N with _ | N'
  · omega
  · simp

/-- Shape of `sampleRoutePoints`: output length `M + 1` with `M` equal to the
interval count or one more, all timestamps, flags, the geometry indices, and
the final position, indexed by `getD`. -/
lemma sampleRoutePoints_structure (dist : K → K → K → K → K) (g : List (K × K))
    (D t0 m : K) :
    ∃ M : ℕ,
      (M = (⌊D / (m * 60)⌋).toNat ∨ M = (⌊D / (m * 60)⌋).toNat + 1) ∧
      (sampleRoutePoints dist g D t0 m).length = M + 1 ∧
      (∀ i, i ≤ M →
        (((sampleRoutePoints dist g D t0 m).getD i noSample).time =
            if i = M then t0 + D * 1000 else t0 + (i : K) * (m * 60) * 1000) ∧
        ((((sampleRoutePoints dist g D t0 m).getD i noSample).isStart = true) ↔ i = 0) ∧
        ((((sampleRoutePoints dist g D t0 m).getD i noSample).isEnd = true) ↔ i = M) ∧
        (((sampleRoutePoints dist g D t0 m).getD i noSample).geometryIndex =
            if i = M then g.length - 1
            else if i = 0 then 0
            else (sampleSegIndex (cumulativeDistances dist g)
                ((cumulativeDistances dist g).getLastD 0) D (m * 60) i).toNat)) ∧
      ((sampleRoutePoints dist g D t0 m).getD M noSample).lat = (g.getLastD (0, 0)).1 ∧
      ((sampleRoutePoints dist g D t0 m).getD M noSample).lon = (g.getLastD (0, 0)).2 := by
  set s := m * 60 with hs
  set N := (⌊D / s⌋).toNat with hN
  set cum := cumulativeDistances dist g with hcum
  set total := cum.getLastD 0 with htotal
  set f : ℕ → SamplePoint K := fun i => intervalSample g cum total D t0 s i with hf
  set startP : SamplePoint K :=
    { lat := (g.headD (0, 0)).1, lon := (g.headD (0, 0)).2,
      time := t0, geometryIndex := 0, isStart := true, isEnd := false } with hstart
  set pts : List (SamplePoint K) := startP :: (List.range N).map (fun k => f (k + 1))
    with hpts
  have hptslen : pts.length = N + 1 := by simp [hpts]
  have hptsget : ∀ i, i < N + 1 →
      pts.getD i noSample = if i = 0 then startP else f i := by
    intro i hi
    exact cons_map_range_getD startP noSample f N i hi
  set lastGeometry := g.getLastD (0, 0) with hlastg
  set endTime := t0 + D * 1000 with hend
  set lastPoint := pts.getLast (List.cons_ne_nil _ _) with hlastp
  have hout : sampleRoutePoints dist g D t0 m =
      if 2 < dist lastPoint.lat lastPoint.lon lastGeometry.1 lastGeometry.2 then
        pts ++ [{ lat := lastGeometry.1, lon := lastGeometry.2, time := endTime,
                  geometryIndex := g.length - 1, isStart := false, isEnd := true }]
      else
        pts.dropLast ++ [{ lastPoint with
          lat := lastGeometry.1, lon := lastGeometry.2, time := endTime,
          geometryIndex := g.length - 1, isEnd := true }] := rfl
  by_cases hc : 2 < dist lastPoint.lat lastPoint.lon lastGeometry.1 lastGeometry.2
  · -- append branch: the end point is a fresh sample, M = N + 1
    rw [hout, if_pos hc]
    set endP : SamplePoint K :=
      { lat := lastGeometry.1, lon := lastGeometry.2, time := endTime,
        geometryIndex := g.length - 1, isStart := false, isEnd := true } with hendP
    refine ⟨N + 1, Or.inr rfl, by simp [hptslen], ?_, ?_, ?_⟩
    · intro i hi
      rcases Nat.lt_or_ge i (N + 1) with hiN | hiN
      · rw [List.getD_append _ _ _ _ (by omega)]
        rw [hptsget i hiN]
        rcases Nat.eq_zero_or_pos i with rfl | hi0
        · refine ⟨by simp [hstart], by simp [hstart], by simp [hstart], by simp [hstart]⟩
        · have hine : i ≠ 0 := by omega
          have hiM : i ≠ N + 1 := by omega
          rw [if_neg hine]
          refine ⟨?_, ?_, ?_, ?_⟩
          · rw [if_neg hiM]; exact intervalSample_time g cum total D t0 s i
          · simp [intervalSample_isStart, hine, hf]
          · simp [intervalSample_isEnd, hiM, hf]
          · rw [if_neg hiM, if_neg hine]
            exact intervalSample_geometryIndex g cum total D t0 s i
      · have hieq : i = N + 1 := by omega
        subst hieq
        rw [List.getD_append_right _ _ _ _ (by omega)]
        have : N + 1 - pts.length = 0 := by omega
        rw [this]
        refine ⟨by simp [hendP], by simp [hendP], by simp [hendP], by simp [hendP]⟩
    · rw [List.getD_append_right _ _ _ _ (by omega)]
      have : N + 1 - pts.length = 0 := by omega
      rw [this]
      simp [hendP]
    · rw [List.getD_append_right _ _ _ _ (by omega)]
      have : N + 1 - pts.length = 0 := by omega
      rw [this]
      simp [hendP]
  · -- overwrite branch: the last emitted sample becomes the end point, M = N
    rw [hout, if_neg hc]
    set endP : SamplePoint K := { lastPoint with
      lat := lastGeometry.1, lon := lastGeometry.2, time := endTime,
      geometryIndex := g.length - 1, isEnd := true } with hendP
    have hdl : pts.dropLast.length = N := by
      rw [List.length_dropLast, hptslen]
      omega
    have hlen' : (pts.dropLast ++ [endP]).length = N + 1 := by
      simp [hdl]
    have hlastval : lastPoint = pts.getD N noSample := by
      rw [hlastp, List.getLast_eq_getElem, List.getD_eq_getElem _ _ (by omega)]
      congr 1
      omega
    have hlastStart : lastPoint.isStart = (decide (N = 0)) := by
      rw [hlastval, hptsget N (by omega)]
      rcases Nat.eq_zero_or_pos N with hN0 | hN0
      · rw [if_pos hN0]
        simp [hstart, hN0]
      · rw [if_neg (by omega)]
        rw [hf]
        rw [intervalSample_isStart]
        simp
        omega
    refine ⟨N, Or.inl rfl, hlen', ?_, ?_, ?_⟩
    · intro i hi
      rcases Nat.lt_or_ge i N with hiN | hiN
      · rw [List.getD_append _ _ _ _ (by omega)]
        have hgetdl : pts.dropLast.getD i noSample = pts.getD i noSample := by
          rw [List.getD_eq_getElem _ _ (by omega), List.getD_eq_getElem _ _ (by omega)]
          exact List.getElem_dropLast _ _ _
        rw [hgetdl, hptsget i (by omega)]
        rcases Nat.eq_zero_or_pos i with rfl | hi0
        · have h0N : ¬ (0 = N) := by omega
          refine ⟨?_, ?_, ?_, ?_⟩
          · rw [if_pos rfl, if_neg h0N]; simp [hstart]
          · simp [hstart]
          · rw [if_pos rfl]; simp [hstart]; omega
          · rw [if_pos rfl, if_neg h0N]; simp [hstart]
        · have hine : i ≠ 0 := by omega
          have hiM : i ≠ N := by omega
          rw [if_neg hine]
          refine ⟨?_, ?_, ?_, ?_⟩
          · rw [if_neg hiM]; exact intervalSample_time g cum total D t0 s i
          · simp [intervalSample_isStart, hine, hf]
          · simp [intervalSample_isEnd, hiM, hf]
          · rw [if_neg hiM, if_neg hine]
            exact intervalSample_geometryIndex g cum total D t0 s i
      · have hieq : i = N := by omega
        subst hieq
        rw [List.getD_append_right _ _ _ _ (by omega)]
        have h0 : N - pts.dropLast.length = 0 := by omega
        rw [h0]
        refine ⟨by simp [hendP], ?_, by simp [hendP], by simp [hendP]⟩
        rw [List.getD_cons_zero]
        have hesp : endP.isStart = lastPoint.isStart := by rw [hendP]
        rw [hesp, hlastStart]
        simp
    · rw [List.getD_append_right _ _ _ _ (by omega)]
      have h0 : N - pts.dropLast.length = 0 := by omega
      rw [h0]
      simp [hendP]
    · rw [List.getD_append_right _ _ _ _ (by omega)]
      have h0 : N - pts.dropLast.length = 0 := by omega
      rw [h0]
      simp [hendP]

lemma interval_floor_bounds (D s : K) (hD : 0 < D) (hs : 0 < s) :
    (((⌊D / s⌋).toNat : K) * s ≤ D) ∧ (D < (((⌊D / s⌋).toNat : K) + 1) * s) := by
  have h1 : (0 : K) ≤ D / s := (div_pos hD hs).le
  have hfl : 0 ≤ ⌊D / s⌋ := Int.floor_nonneg.mpr h1
  have hcast : ((⌊D / s⌋).toNat : K) = ((⌊D / s⌋ : ℤ) : K) := by
    have h := Int.toNat_of_nonneg hfl
    calc ((⌊D / s⌋).toNat : K) = (((⌊D / s⌋).toNat : ℤ) : K) := by push_cast; ring
      _ = ((⌊D / s⌋ : ℤ) : K) := by rw [h]
  constructor
  · rw [hcast]
    have := Int.floor_le (D / s)
    calc ((⌊D / s⌋ : ℤ) : K) * s ≤ (D / s) * s := by
          exact mul_le_mul_of_nonneg_right this hs.le
      _ = D := by field_simp
  · rw [hcast]
    have := Int.lt_floor_add_one (D / s)
    have h2 : D / s * s < ((⌊D / s⌋ : ℤ) + 1 : K) * s := by
      exact mul_lt_mul_of_pos_right this hs
    have h3 : D / s * s = D := by field_simp
    push_cast at h2 ⊢
    linarith

lemma head?_eq_getD {α : Type} (l : List α) (d : α) (h : l ≠ []) :
    l.head? = some (l.getD 0 d) := by
  cases l with
  | nil => exact absurd rfl h
  | cons a as => simp

lemma getLast?_eq_getD {α : Type} (l : List α) (d : α) (M : ℕ) (h : l.length = M + 1) :
    l.getLast? = some (l.getD M d) := by
  rw [List.getD_eq_getElem _ _ (by omega), List.getLast?_eq_getElem?]
  have hM : l.length - 1 = M := by omega
  rw [hM, List.getElem?_eq_getElem (by omega)]

end SamplerShape

/-- The cumulative-distance table as built by the program: the generic table
instantiated with the haversine distance over the reals. -/
noncomputable def cumulativeDistancesR (g : List (ℝ × ℝ)) : List ℝ :=
  cumulativeDistances haversineDistance g

/-- The temporal sampler as run by the program: `sampleRoutePoints` with the
haversine distance over the reals. -/
noncomputable def sampleRoutePointsR (geometry : List (ℝ × ℝ)) (totalDuration t0 m : ℝ) :
    List (SamplePoint ℝ) :=
  sampleRoutePoints haversineDistance geometry totalDuration t0 m

/-- **C7.** For every polyline of length ≥ 1 the cumulative-distance table has
the polyline's length, starts at exactly 0, satisfies the recurrence
`table[i+1] = table[i] + haversine(poly[i], poly[i+1])` (Earth radius 6371 km),
and is monotonically non-decreasing. -/
theorem c7_cumulative_table (poly : List (ℝ × ℝ)) (h : 1 ≤ poly.length) :
    (cumulativeDistancesR poly).length = poly.length ∧
    (cumulativeDistancesR poly).head? = some 0 ∧
    (∀ i, i + 1 < poly.length →
      (cumulativeDistancesR poly).getD (i + 1) 0 =
        (cumulativeDistancesR poly).getD i 0 +
          haversineDistance (poly.getD i (0, 0)).1 (poly.getD i (0, 0)).2
            (poly.getD (i + 1) (0, 0)).1 (poly.getD (i + 1) (0, 0)).2) ∧
    List.Pairwise (· ≤ ·) (cumulativeDistancesR poly) := by
  have hne : poly ≠ [] := by
    cases poly with
    | nil => simp at h
    | cons p ps => simp
  exact ⟨cumulativeDistances_length _ _ hne, cumulativeDistances_head _ _,
    fun i hi => cumulativeDistances_getD_succ _ _ i hi,
    cumulativeDistances_pairwise _ haversineDistance_nonneg _⟩

/-- Witness for C7 at the concrete polyline `[(0,0),(0,0)]`. -/
theorem c7_cumulative_table_witness :
    (cumulativeDistancesR [(0, 0), (0, 0)]).length = 2 ∧
    (cumulativeDistancesR [(0, 0), (0, 0)]).head? = some 0 := by
  have h := c7_cumulative_table [(0, 0), (0, 0)] (by simp)
  exact ⟨h.1, h.2.1⟩

/-- **C1 (amended).** For every polyline with ≥ 2 points, duration `D > 0` and
interval `m > 0`: the output is nonempty; its first element has `isStart` and,
whenever the output has at least two elements, time `startTime`; its last
element has `isEnd`, position exactly the polyline's last point and time
`startTime + D`; timestamps are non-decreasing; all consecutive gaps except
the final one equal exactly `m*60` seconds; and the final gap is nonnegative
and strictly below `2*m*60` seconds (it can exceed `m*60` seconds when the
last interval sample is merged into the end point, and the single-point output
arising when no interval elapses and the whole route is within 2 km carries
time `startTime + D`, not `startTime`). -/
theorem c1_amended (g : List (ℝ × ℝ)) (D t0 m : ℝ) (hg : 2 ≤ g.length)
    (hD : 0 < D) (hm : 0 < m) :
    sampleRoutePointsR g D t0 m ≠ [] ∧
    (∃ p, (sampleRoutePointsR g D t0 m).head? = some p ∧ p.isStart = true ∧
      (2 ≤ (sampleRoutePointsR g D t0 m).length → p.time = t0)) ∧
    (∃ q, (sampleRoutePointsR g D t0 m).getLast? = some q ∧ q.isEnd = true ∧
      q.lat = (g.getLastD (0, 0)).1 ∧ q.lon = (g.getLastD (0, 0)).2 ∧
      q.time = t0 + D * 1000) ∧
    (∀ i, i + 2 ≤ (sampleRoutePointsR g D t0 m).length →
      ((sampleRoutePointsR g D t0 m).getD i noSample).time ≤
        ((sampleRoutePointsR g D t0 m).getD (i + 1) noSample).time) ∧
    (∀ i, i + 2 < (sampleRoutePointsR g D t0 m).length →
      ((sampleRoutePointsR g D t0 m).getD (i + 1) noSample).time -
        ((sampleRoutePointsR g D t0 m).getD i noSample).time = m * 60 * 1000) ∧
    (∀ i, i + 2 = (sampleRoutePointsR g D t0 m).length →
      0 ≤ ((sampleRoutePointsR g D t0 m).getD (i + 1) noSample).time -
        ((sampleRoutePointsR g D t0 m).getD i noSample).time ∧
      ((sampleRoutePointsR g D t0 m).getD (i + 1) noSample).time -
        ((sampleRoutePointsR g D t0 m).getD i noSample).time < 2 * (m * 60 * 1000)) := by
  obtain ⟨M, hMor, hlen, hchar, hlat, hlon⟩ :=
    sampleRoutePoints_structure haversineDistance g D t0 m
  have hs : (0 : ℝ) < m * 60 := by linarith
  obtain ⟨hfb1, hfb2⟩ := interval_floor_bounds D (m * 60) hD hs
  set out := sampleRoutePointsR g D t0 m with hout
  have houtlen : out.length = M + 1 := hlen
  have hne : out ≠ [] := by
    intro h
    rw [h] at houtlen
    simp at houtlen
  -- the timestamp of every entry
  have htime : ∀ i, i ≤ M → (out.getD i noSample).time =
      if i = M then t0 + D * 1000 else t0 + (i : ℝ) * (m * 60) * 1000 :=
    fun i hi => (hchar i hi).1
  -- final-gap bound: D - (M - 1) * s ∈ (the required range)
  have hgapfacts : ((M : ℝ) - 1) * (m * 60) ≤ D - 0 ∧
      D - ((M : ℝ) - 1) * (m * 60) < 2 * (m * 60) := by
    rcases hMor with hM | hM
    · -- M = N : overwrite branch, gap in [s, 2s)
      constructor
      · have : ((M : ℝ) - 1) * (m * 60) ≤ (M : ℝ) * (m * 60) := by nlinarith
        rw [hM] at *
        nlinarith [hfb1]
      · rw [hM]
        nlinarith [hfb2]
    · -- M = N + 1 : append branch, gap in [0, s)
      constructor
      · rw [hM]
        push_cast
        nlinarith [hfb1]
      · rw [hM]
        push_cast
        nlinarith [hfb1, hfb2, hs]
  refine ⟨hne, ?_, ?_, ?_, ?_, ?_⟩
  · refine ⟨out.getD 0 noSample, head?_eq_getD out noSample hne, ?_, ?_⟩
    · exact ((hchar 0 (by omega)).2.1).mpr rfl
    · intro hlen2
      have hM1 : 1 ≤ M := by omega
      rw [htime 0 (by omega), if_neg (by omega)]
      push_cast
      ring
  · refine ⟨out.getD M noSample, getLast?_eq_getD out noSample M houtlen, ?_, hlat, hlon, ?_⟩
    · exact ((hchar M (by omega)).2.2.1).mpr rfl
    · rw [htime M (by omega), if_pos rfl]
  · intro i hi
    have hiM : i + 1 ≤ M := by omega
    rw [htime i (by omega), htime (i + 1) (by omega), if_neg (by omega)]
    by_cases hieq : i + 1 = M
    · rw [if_pos hieq]
      have : (i : ℝ) = (M : ℝ) - 1 := by
        have h' : (i : ℝ) + 1 = (M : ℝ) := by exact_mod_cast hieq
        linarith
      rw [this]
      nlinarith [hgapfacts.1]
    · rw [if_neg hieq]
      have : ((i : ℝ) + 1) * (m * 60) * 1000 - (i : ℝ) * (m * 60) * 1000 = m * 60 * 1000 := by
        ring
      push_cast
      nlinarith [hs]
  · intro i hi
    have h1 : i + 1 ≠ M := by omega
    have h0 : i ≠ M := by omega
    rw [htime i (by omega), htime (i + 1) (by omega), if_neg h1, if_neg h0]
    push_cast
    ring
  · intro i hi
    have h1 : i + 1 = M := by omega
    have h0 : i ≠ M := by omega
    rw [htime i (by omega), htime (i + 1) (by omega), if_pos h1, if_neg h0]
    have hicast : (i : ℝ) = (M : ℝ) - 1 := by
      have h' : (i : ℝ) + 1 = (M : ℝ) := by exact_mod_cast h1
      linarith
    rw [hicast]
    constructor
    · nlinarith [hgapfacts.1]
    · nlinarith [hgapfacts.2]

/-- Witness for C1 (amended) at the polyline `[(0,0),(0,180)]`, one hour of
travel, 30-minute sampling. -/
theorem c1_amended_witness :
    sampleRoutePointsR [(0, 0), (0, 180)] 3600 0 30 ≠ [] := by
  exact (c1_amended [(0, 0), (0, 180)] 3600 0 30 (by simp) (by norm_num) (by norm_num)).1

section SegIndexFacts

set_option linter.unusedSectionVars false

variable {K : Type} [LinearOrderedField K] [FloorRing K]

lemma cum_cons (dist : K → K → K → K → K) (g : List (K × K)) :
    ∃ rest, cumulativeDistances dist g = 0 :: rest := by
  cases g with
  | nil => exact ⟨[], rfl⟩
  | cons p ps => exact ⟨cumAux dist p ps 0, rfl⟩

lemma total_nonneg (dist : K → K → K → K → K) (hd : ∀ a b c d, 0 ≤ dist a b c d)
    (g : List (K × K)) : 0 ≤ (cumulativeDistances dist g).getLastD 0 := by
  obtain ⟨rest, hrest⟩ := cum_cons dist g
  have hpw := cumulativeDistances_pairwise dist hd g
  rw [hrest] at hpw ⊢
  have heq : (0 :: rest).getLastD 0 = (0 :: rest).getLast (List.cons_ne_nil _ _) := rfl
  rw [heq]
  have hmem := List.getLast_mem (List.cons_ne_nil (0 : K) rest)
  rcases List.mem_cons.mp hmem with h0 | hmem'
  · rw [h0]
  · exact (List.pairwise_cons.mp hpw).1 _ hmem'

lemma total_eq_getLast (dist : K → K → K → K → K) (g : List (K × K)) :
    (cumulativeDistances dist g).getLastD 0 =
      (cumulativeDistances dist g).getLast (cumulativeDistances_ne_nil dist g) := by
  rw [List.getLastD_eq_getLast?,
    List.getLast?_eq_getLast _ (cumulativeDistances_ne_nil dist g), Option.getD_some]

/-- With the target within the table's last entry, the search succeeds. -/
lemma segSearch_found (dist : K → K → K → K → K) (g : List (K × K)) (x : K)
    (hx : x ≤ (cumulativeDistances dist g).getLastD 0) :
    0 ≤ jsFindIndex (fun d => decide (x ≤ d)) (cumulativeDistances dist g) := by
  have hne := cumulativeDistances_ne_nil dist g
  refine jsFindIndex_nonneg_of_mem _ _ ((cumulativeDistances dist g).getLast hne)
    (List.getLast_mem hne) ?_
  rw [total_eq_getLast dist g] at hx
  simpa using hx

/-- Bounds on the sampler's fixed-up segment index: it lies in
`[1, geometry.length - 1]` whenever the elapsed distance target does not
exceed the total. -/
lemma sampleSegIndex_bounds (dist : K → K → K → K → K)
    (hd : ∀ a b c d, 0 ≤ dist a b c d) (g : List (K × K)) (D s : K)
    (hD : 0 < D) (hg : 2 ≤ g.length) (i : ℕ) (hi : (i : K) * s ≤ D) :
    1 ≤ sampleSegIndex (cumulativeDistances dist g)
        ((cumulativeDistances dist g).getLastD 0) D s i ∧
    sampleSegIndex (cumulativeDistances dist g)
        ((cumulativeDistances dist g).getLastD 0) D s i ≤ (g.length : ℤ) - 1 := by
  have hgne : g ≠ [] := by
    cases g with
    | nil => simp at hg
    | cons p ps => simp
  have hlen : (cumulativeDistances dist g).length = g.length :=
    cumulativeDistances_length dist g hgne
  have htot0 : 0 ≤ (cumulativeDistances dist g).getLastD 0 := total_nonneg dist hd g
  have hratio : (i : K) * s / D ≤ 1 := (div_le_one hD).mpr hi
  have htle : ((i : K) * s / D) * ((cumulativeDistances dist g).getLastD 0) ≤
      (cumulativeDistances dist g).getLastD 0 := by nlinarith
  have hfound := segSearch_found dist g _ htle
  have hlt := jsFindIndex_lt_length
    (fun d => decide (((i : K) * s / D) * ((cumulativeDistances dist g).getLastD 0) ≤ d))
    (cumulativeDistances dist g)
  rw [hlen] at hlt
  simp only [sampleSegIndex]
  split
  · constructor
    · omega
    · omega
  · constructor
    · omega
    · omega

/-- The sampler's segment index is monotone in the step number. -/
lemma sampleSegIndex_mono (dist : K → K → K → K → K)
    (hd : ∀ a b c d, 0 ≤ dist a b c d) (g : List (K × K)) (D s : K)
    (hD : 0 < D) (hs : 0 < s) (i j : ℕ) (hij : i ≤ j) (hj : (j : K) * s ≤ D) :
    sampleSegIndex (cumulativeDistances dist g)
        ((cumulativeDistances dist g).getLastD 0) D s i ≤
      sampleSegIndex (cumulativeDistances dist g)
        ((cumulativeDistances dist g).getLastD 0) D s j := by
  have htot0 : 0 ≤ (cumulativeDistances dist g).getLastD 0 := total_nonneg dist hd g
  have hcast : (i : K) ≤ (j : K) := by exact_mod_cast hij
  have htij : ((i : K) * s / D) * ((cumulativeDistances dist g).getLastD 0) ≤
      ((j : K) * s / D) * ((cumulativeDistances dist g).getLastD 0) := by
    have h1 : (i : K) * s ≤ (j : K) * s := by nlinarith
    have h2 : (i : K) * s / D ≤ (j : K) * s / D := (div_le_div_right hD).mpr h1
    nlinarith
  have hratj : (j : K) * s / D ≤ 1 := (div_le_one hD).mpr hj
  have htlej : ((j : K) * s / D) * ((cumulativeDistances dist g).getLastD 0) ≤
      (cumulativeDistances dist g).getLastD 0 := by nlinarith
  have hfoundj := segSearch_found dist g _ htlej
  obtain ⟨hfi, hmono⟩ := jsFindIndex_mono
    (fun d => decide (((i : K) * s / D) * ((cumulativeDistances dist g).getLastD 0) ≤ d))
    (fun d => decide (((j : K) * s / D) * ((cumulativeDistances dist g).getLastD 0) ≤ d))
    (cumulativeDistances dist g)
    (by
      intro a ha
      simp only [decide_eq_true_eq] at ha ⊢
      linarith)
    hfoundj
  simp only [sampleSegIndex]
  split <;> split <;> omega

end SegIndexFacts

/-- **C10.** For every polyline of length ≥ 2, `D > 0` and `m > 0`, every
sample returned by `sampleRoutePoints` has a `geometryIndex` within
`[0, polyline.length - 1]`, the last sample's `geometryIndex` is exactly
`polyline.length - 1`, and the `geometryIndex` values are non-decreasing
along the returned sequence. -/
theorem c10_geometry_index (g : List (ℝ × ℝ)) (D t0 m : ℝ) (hg : 2 ≤ g.length)
    (hD : 0 < D) (hm : 0 < m) :
    (∀ p ∈ sampleRoutePointsR g D t0 m, p.geometryIndex ≤ g.length - 1) ∧
    (∃ q, (sampleRoutePointsR g D t0 m).getLast? = some q ∧
      q.geometryIndex = g.length - 1) ∧
    List.Pairwise (· ≤ ·)
      ((sampleRoutePointsR g D t0 m).map (fun p => p.geometryIndex)) := by
  obtain ⟨M, hMor, hlen, hchar, _, _⟩ :=
    sampleRoutePoints_structure haversineDistance g D t0 m
  have hs : (0 : ℝ) < m * 60 := by linarith
  obtain ⟨hfb1, hfb2⟩ := interval_floor_bounds D (m * 60) hD hs
  set out := sampleRoutePointsR g D t0 m with hout
  have houtlen : out.length = M + 1 := hlen
  have hne : out ≠ [] := by
    intro h
    rw [h] at houtlen
    simp at houtlen
  have hgichar : ∀ i, i ≤ M → (out.getD i noSample).geometryIndex =
      if i = M then g.length - 1
      else if i = 0 then 0
      else (sampleSegIndex (cumulativeDistances haversineDistance g)
          ((cumulativeDistances haversineDistance g).getLastD 0) D (m * 60) i).toNat :=
    fun i hi => (hchar i hi).2.2.2
  have hstep : ∀ i : ℕ, 0 < i → i < M → (i : ℝ) * (m * 60) ≤ D := by
    intro i hi0 hiM
    have hiN : i ≤ (⌊D / (m * 60)⌋).toNat := by omega
    have : (i : ℝ) ≤ ((⌊D / (m * 60)⌋).toNat : ℝ) := by exact_mod_cast hiN
    nlinarith
  have hbound : ∀ i, i ≤ M → (out.getD i noSample).geometryIndex ≤ g.length - 1 := by
    intro i hi
    rw [hgichar i hi]
    by_cases hiM : i = M
    · rw [if_pos hiM]
    · rw [if_neg hiM]
      by_cases hi0 : i = 0
      · rw [if_pos hi0]; omega
      · rw [if_neg hi0]
        have hsb := sampleSegIndex_bounds haversineDistance haversineDistance_nonneg
          g D (m * 60) hD hg i (hstep i (by omega) (by omega))
        omega
  refine ⟨?_, ?_, ?_⟩
  · intro p hp
    obtain ⟨i, hilt, hpi⟩ := List.mem_iff_getElem.mp hp
    have hi : i ≤ M := by omega
    have : out.getD i noSample = p := by
      rw [List.getD_eq_getElem _ _ (by omega)]
      exact hpi
    rw [← this]
    exact hbound i hi
  · refine ⟨out.getD M noSample, getLast?_eq_getD out noSample M houtlen, ?_⟩
    rw [hgichar M (by omega), if_pos rfl]
  · have hchain : List.Chain' (· ≤ ·) (out.map (fun p => p.geometryIndex)) := by
      rw [List.chain'_iff_get]
      intro i hilen
      have hmaplen : (out.map (fun p => p.geometryIndex)).length = M + 1 := by
        rw [List.length_map, houtlen]
      have hiM : i + 1 ≤ M := by omega
      have hget : ∀ j (hj : j < M + 1),
          (out.map (fun p => p.geometryIndex)).get ⟨j, by omega⟩ =
            (out.getD j noSample).geometryIndex := by
        intro j hj
        rw [List.get_eq_getElem, List.getElem_map, ← List.getD_eq_getElem out noSample (by omega)]
      rw [List.get_of_eq rfl, hget i (by omega)]
      rw [show ((out.map fun p => p.geometryIndex).get
        ⟨i + 1, by rw [List.length_map]; omega⟩) =
        (out.getD (i + 1) noSample).geometryIndex from hget (i + 1) (by omega)]
      rw [hgichar i (by omega), hgichar (i + 1) (by omega)]
      by_cases hi0 : i = 0
      · rw [if_neg (by omega), if_pos hi0]
        omega
      · rw [if_neg (by omega), if_neg hi0]
        by_cases hi1M : i + 1 = M
        · rw [if_pos hi1M]
          have hsb := sampleSegIndex_bounds haversineDistance haversineDistance_nonneg
            g D (m * 60) hD hg i (hstep i (by omega) (by omega))
          omega
        · rw [if_neg hi1M, if_neg (by omega)]
          have hmono := sampleSegIndex_mono haversineDistance haversineDistance_nonneg
            g D (m * 60) hD hs i (i + 1) (by omega) (hstep (i + 1) (by omega) (by omega))
          have hsb := sampleSegIndex_bounds haversineDistance haversineDistance_nonneg
            g D (m * 60) hD hg i (hstep i (by omega) (by omega))
          omega
    exact List.chain'_iff_pairwise.mp hchain

/-- The cumulative table of the duplicated-origin polyline is `[0, 0]`. -/
lemma cumulativeDistancesR_dup :
    cumulativeDistancesR [((0 : ℝ), 0), (0, 0)] = [0, 0] := by
  simp [cumulativeDistancesR, cumulativeDistances, cumAux, haversineDistance_zero]

lemma floor_sixty_div : (⌊(60 : ℝ) / ((30 : ℝ) * 60)⌋).toNat = 0 := by
  have h : (60 : ℝ) / ((30 : ℝ) * 60) = 1 / 30 := by norm_num
  rw [h, Int.floor_eq_zero_iff.mpr (by constructor <;> norm_num)]
  rfl

lemma floor_2700_div : (⌊(2700 : ℝ) / ((30 : ℝ) * 60)⌋).toNat = 1 := by
  have h : (2700 : ℝ) / ((30 : ℝ) * 60) = 3 / 2 := by norm_num
  rw [h]
  have h32 : (⌊(3 / 2 : ℝ)⌋ : ℤ) = 1 := by
    rw [Int.floor_eq_iff]
    constructor <;> norm_num
  rw [h32]
  rfl

/-- Concrete run: duplicated-origin polyline, 60 s duration, 30-minute
interval.  No interval elapses and the route end is within 2 km, so the
single start sample itself is overwritten into the end sample: the output is
one point carrying both flags, at time `60000` ms, not `startTime`. -/
lemma sampleRoutePointsR_eval1 :
    sampleRoutePointsR [((0 : ℝ), 0), (0, 0)] 60 0 30 =
      [{ lat := 0, lon := 0, time := 60000, geometryIndex := 1,
         isStart := true, isEnd := true }] := by
  have hcum : cumulativeDistances haversineDistance [((0 : ℝ), 0), (0, 0)] = [0, 0] :=
    cumulativeDistancesR_dup
  simp [sampleRoutePointsR, sampleRoutePoints, hcum, floor_sixty_div,
    haversineDistance_zero]
  norm_num

/-- Concrete run: duplicated-origin polyline, 2700 s duration, 30-minute
interval.  One interval sample is emitted at 1800 s and then overwritten into
the end sample at 2700 s, so the single remaining gap is 2700 s — longer than
the 1800 s interval. -/
lemma sampleRoutePointsR_eval2 :
    sampleRoutePointsR [((0 : ℝ), 0), (0, 0)] 2700 0 30 =
      [{ lat := 0, lon := 0, time := 0, geometryIndex := 0,
         isStart := true, isEnd := false },
       { lat := 0, lon := 0, time := 2700000, geometryIndex := 1,
         isStart := false, isEnd := true }] := by
  have hcum : cumulativeDistances haversineDistance [((0 : ℝ), 0), (0, 0)] = [0, 0] :=
    cumulativeDistancesR_dup
  have hmid : intervalSample [((0 : ℝ), 0), (0, 0)] [0, 0]
      (([0, 0] : List ℝ).getLastD 0) 2700 0 ((30 : ℝ) * 60) 1 =
      { lat := 0, lon := 0, time := 1800000, geometryIndex := 1,
        isStart := false, isEnd := false } := by
    simp only [intervalSample, sampleSegIndex, jsFindIndex]
    norm_num
  have hr1 : List.range 1 = [0] := rfl
  simp only [sampleRoutePointsR, sampleRoutePoints]
  simp only [hcum]
  simp only [floor_2700_div, hr1, List.map_cons, List.map_nil, Nat.zero_add]
  simp only [hmid]
  simp [haversineDistance_zero]
  norm_num

/-- The sample coverage and spacing property exactly as claim C1 states it:
first element `isStart` at `startTime`, last element `isEnd` at the polyline's
last point at `startTime + D`, time-ordered, consecutive gaps exactly
`m*60` seconds except a possibly-shorter final gap. -/
def sampleCoverageClaim (g : List (ℝ × ℝ)) (D t0 m : ℝ) : Prop :=
  (∃ p, (sampleRoutePointsR g D t0 m).head? = some p ∧ p.isStart = true ∧ p.time = t0) ∧
  (∃ q, (sampleRoutePointsR g D t0 m).getLast? = some q ∧ q.isEnd = true ∧
    q.lat = (g.getLastD (0, 0)).1 ∧ q.lon = (g.getLastD (0, 0)).2 ∧
    q.time = t0 + D * 1000) ∧
  (∀ i, i + 2 ≤ (sampleRoutePointsR g D t0 m).length →
    ((sampleRoutePointsR g D t0 m).getD i noSample).time ≤
      ((sampleRoutePointsR g D t0 m).getD (i + 1) noSample).time) ∧
  (∀ i, i + 2 ≤ (sampleRoutePointsR g D t0 m).length →
    (((sampleRoutePointsR g D t0 m).getD (i + 1) noSample).time -
        ((sampleRoutePointsR g D t0 m).getD i noSample).time = m * 60 * 1000 ∨
      (i + 2 = (sampleRoutePointsR g D t0 m).length ∧
        ((sampleRoutePointsR g D t0 m).getD (i + 1) noSample).time -
          ((sampleRoutePointsR g D t0 m).getD i noSample).time ≤ m * 60 * 1000)))

/-- **C1 (counterexample).** The claim fails on two concrete inputs satisfying
all its preconditions (polyline of 2 points, `D > 0`, `m > 0`): with
`D = 60 s` the single output point has time `startTime + 60000 ms ≠
startTime`; with `D = 2700 s` the final gap is `2700000 ms`, which is neither
exactly the interval (`1800000 ms`) nor shorter than it. -/
theorem c1_counterexample :
    (2 ≤ ([((0 : ℝ), 0), (0, 0)] : List (ℝ × ℝ)).length ∧ (0 : ℝ) < 60 ∧ (0 : ℝ) < 30 ∧
      ¬ sampleCoverageClaim [(0, 0), (0, 0)] 60 0 30) ∧
    (2 ≤ ([((0 : ℝ), 0), (0, 0)] : List (ℝ × ℝ)).length ∧ (0 : ℝ) < 2700 ∧ (0 : ℝ) < 30 ∧
      ¬ sampleCoverageClaim [(0, 0), (0, 0)] 2700 0 30) := by
  refine ⟨⟨by simp, by norm_num, by norm_num, ?_⟩, ⟨by simp, by norm_num, by norm_num, ?_⟩⟩
  · intro hclaim
    obtain ⟨⟨p, hp, _, hpt⟩, _, _, _⟩ := hclaim
    rw [sampleRoutePointsR_eval1] at hp
    simp only [List.head?_cons, Option.some.injEq] at hp
    rw [← hp] at hpt
    norm_num at hpt
  · intro hclaim
    obtain ⟨_, _, _, hgaps⟩ := hclaim
    have h := hgaps 0 (by rw [sampleRoutePointsR_eval2]; simp)
    rw [sampleRoutePointsR_eval2] at h
    simp only [List.getD_cons_zero, List.getD_cons_succ] at h
    rcases h with h | ⟨_, h⟩ <;> norm_num at h

/-- Witness for C10 at the polyline `[(0,0),(0,180)]`, one hour of travel,
30-minute sampling. -/
theorem c10_geometry_index_witness :
    ∃ q, (sampleRoutePointsR [(0, 0), (0, 180)] 3600 0 30).getLast? = some q ∧
      q.geometryIndex = 1 := by
  exact (c10_geometry_index [(0, 0), (0, 180)] 3600 0 30 (by simp) (by norm_num)
    (by norm_num)).2.1

section StableSortDefs

variable {α : Type}

/-- Insert into a sorted list after all elements not strictly greater: the
step of a stable ascending sort, matching the (stable, ES2019+) JavaScript
`Array.prototype.sort` with a numeric comparator. -/
def insertSorted (lt : α → α → Bool) (a : α) : List α → List α
  | [] => [a]
  | b :: bs => if lt a b then a :: b :: bs else b :: insertSorted lt a bs

/-- Stable ascending sort by the strict comparison `lt` (insertion sort). -/
def stableSort (lt : α → α → Bool) (l : List α) : List α :=
  l.foldl (fun acc a => insertSorted lt a acc) []

lemma insertSorted_perm (lt : α → α → Bool) (a : α) (l : List α) :
    (insertSorted lt a l).Perm (a :: l) := by
  induction l with
  | nil => simp [insertSorted]
  | cons b bs ih =>
      simp only [insertSorted]
      split
      · exact List.Perm.refl _
      · exact (List.Perm.cons b ih).trans (List.Perm.swap a b bs)

lemma foldl_insertSorted_perm (lt : α → α → Bool) (l acc : List α) :
    (l.foldl (fun acc a => insertSorted lt a acc) acc).Perm (acc ++ l) := by
  induction l generalizing acc with
  | nil => simp
  | cons a as ih =>
      simp only [List.foldl_cons]
      refine (ih (insertSorted lt a acc)).trans ?_
      refine (List.Perm.append_right as (insertSorted_perm lt a acc)).trans ?_
      exact List.perm_middle.symm

lemma stableSort_perm (lt : α → α → Bool) (l : List α) : (stableSort lt l).Perm l := by
  simpa [stableSort] using foldl_insertSorted_perm lt l []

lemma mem_stableSort (lt : α → α → Bool) (l : List α) (a : α) :
    a ∈ stableSort lt l ↔ a ∈ l :=
  (stableSort_perm lt l).mem_iff

end StableSortDefs

section Filter

variable {K : Type} [LinearOrderedField K]

/-- `hasPrecipitation(point)`: a weather observation is present and its
precipitation is strictly positive. -/
def hasPrecipitation (p : WPoint K) : Bool :=
  match p.weather with
  | some w => decide (0 < w.precipitation)
  | none => false

/-- `isRainyCode(code)`: all WMO codes ≥ 51 indicate precipitation. -/
def isRainyCode (code : ℤ) : Bool := decide (51 ≤ code)

/-- `weatherCategory(code)` of the source, with the category strings encoded
as 0 = clear, 1 = fog, 2 = rain, 3 = snow, 4 = showers, 5 = storm. -/
def weatherCategory (code : ℤ) : ℕ :=
  if code ≤ 3 then 0
  else if code ≤ 48 then 1
  else if code ≤ 67 then 2
  else if code ≤ 77 then 3
  else if code ≤ 82 then 4
  else 5

/-- The pass-1 classification of one point against its predecessor: `isStart`
/`isEnd` first, then (when the previous point exists and both have weather)
the precipitation-presence flip, the > 3 °C temperature jump, and the
category change, each later check overwriting the reason. Returns the final
reason when the point is significant, `none` otherwise. -/
def classify (prev : Option (WPoint K)) (cur : WPoint K) : Option Reason :=
  let r0 : Option Reason :=
    if cur.isStart then some Reason.trip_start
    else if cur.isEnd then some Reason.trip_end
    else none
  match prev, cur.weather with
  | some pv, some cw =>
    match pv.weather with
    | some pw =>
        let currentRain := hasPrecipitation cur || isRainyCode cw.weatherCode
        let prevRain := hasPrecipitation pv || isRainyCode pw.weatherCode
        let r1 := if currentRain ≠ prevRain then
            some (if currentRain then Reason.rain_start else Reason.rain_end)
          else r0
        let r2 := if 3 < |cw.temperature - pw.temperature| then some Reason.temp_change else r1
        if weatherCategory cw.weatherCode ≠ weatherCategory pw.weatherCode then
          some Reason.weather_change
        else r2
    | none => r0
  | _, _ => r0

/-- The pass-1 loop: walk the points with their predecessor, pushing a copy
annotated with `significantReason` for each significant point. -/
def pass1 : Option (WPoint K) → List (WPoint K) → List (WPoint K)
  | _, [] => []
  | prev, w :: ws =>
      (match classify prev w with
       | some r => [{ w with significantReason := some r }]
       | none => []) ++ pass1 (some w) ws

/-- `priority = {start: 0, end: 1, rain_start: 2, rain_end: 3,
weather_change: 4, temp_change: 5, interval: 6}` of the source. -/
def reasonPriorityTable : Reason → ℕ
  | Reason.trip_start => 0
  | Reason.trip_end => 1
  | Reason.rain_start => 2
  | Reason.rain_end => 3
  | Reason.weather_change => 4
  | Reason.temp_change => 5
  | Reason.interval => 6

/-- `priority[p.significantReason] || 6` of the source: a missing key gives
`undefined` (hence 6) — and the number 0 is falsy in JavaScript, so the
`start` priority 0 also collapses to 6. -/
def jsPriority (p : WPoint K) : ℕ :=
  match p.significantReason with
  | some r => if reasonPriorityTable r = 0 then 6 else reasonPriorityTable r
  | none => 6

/-- The indices visited by `for (i = interval; i < length - 1; i += interval)`:
the positive multiples of `interval` below `length - 1`, in increasing
order. -/
def intervalIndices (len interval : ℕ) : List ℕ :=
  (List.range (len - 1)).filter (fun i => decide (0 < i) && decide (i % interval = 0))

/-- One step of the pass-2 injection loop: add the point at index `i`
(reason `interval`) unless a point with the same timestamp is already
present. -/
def injStep (wps : List (WPoint K)) (acc : List (WPoint K)) (i : ℕ) : List (WPoint K) :=
  match wps[i]? with
  | some w =>
      if acc.any (fun p => decide (p.time = w.time)) then acc
      else acc ++ [{ w with significantReason := some Reason.interval }]
  | none => acc

/-- `filterSignificantWeatherPoints(weatherPoints, maxPoints)` from the
source. -/
def filterSignificantWeatherPoints (wps : List (WPoint K)) (maxPoints : ℕ) :
    List (WPoint K) :=
  if wps.length ≤ 3 then wps
  else
    let significant := pass1 none wps
    let significant2 :=
      if significant.length < 4 ∧ 4 < wps.length then
        stableSort (fun a b => decide (a.time < b.time))
          ((intervalIndices wps.length (wps.length / 4)).foldl (injStep wps) significant)
      else significant
    if maxPoints < significant2.length then
      stableSort (fun a b => decide (a.time < b.time))
        ((stableSort (fun a b => decide (jsPriority a < jsPriority b))
          significant2).take maxPoints)
    else significant2

end Filter

section FilterClaims

variable {K : Type} [LinearOrderedField K]

/-- Every element pushed by pass 1 is an input element with (only) its
`significantReason` replaced. -/
lemma pass1_sub (prev : Option (WPoint K)) (ws : List (WPoint K)) (q : WPoint K)
    (hq : q ∈ pass1 prev ws) :
    ∃ p ∈ ws, q = { p with significantReason := q.significantReason } := by
  induction ws generalizing prev with
  | nil => simp [pass1] at hq
  | cons w ws ih =>
      simp only [pass1, List.mem_append] at hq
      rcases hq with hq | hq
      · cases hc : classify prev w with
        | none => rw [hc] at hq; simp at hq
        | some r =>
            rw [hc] at hq
            simp only [List.mem_singleton] at hq
            subst hq
            exact ⟨w, by simp, rfl⟩
      · obtain ⟨p, hp, he⟩ := ih (some w) hq
        exact ⟨p, by simp [hp], he⟩

lemma injStep_sub (wps acc : List (WPoint K)) (i : ℕ)
    (hacc : ∀ q ∈ acc, ∃ p ∈ wps, q = { p with significantReason := q.significantReason })
    (q : WPoint K) (hq : q ∈ injStep wps acc i) :
    ∃ p ∈ wps, q = { p with significantReason := q.significantReason } := by
  unfold injStep at hq
  cases hw : wps[i]? with
  | none =>
      simp only [hw] at hq
      exact hacc q hq
  | some w =>
      simp only [hw] at hq
      split at hq
      · exact hacc q hq
      · rcases List.mem_append.mp hq with hq' | hq'
        · exact hacc q hq'
        · simp only [List.mem_singleton] at hq'
          subst hq'
          obtain ⟨hlt, rfl⟩ := List.getElem?_eq_some_iff.mp hw
          exact ⟨_, List.getElem_mem hlt, rfl⟩

lemma injFold_sub (wps : List (WPoint K)) (idxs : List ℕ) (acc : List (WPoint K))
    (hacc : ∀ q ∈ acc, ∃ p ∈ wps, q = { p with significantReason := q.significantReason })
    (q : WPoint K) (hq : q ∈ idxs.foldl (injStep wps) acc) :
    ∃ p ∈ wps, q = { p with significantReason := q.significantReason } := by
  induction idxs generalizing acc with
  | nil => exact hacc q hq
  | cons i is ih =>
      simp only [List.foldl_cons] at hq
      exact ih (injStep wps acc i) (fun q' hq' => injStep_sub wps acc i hacc q' hq') hq

/-- **C9.** `filterSignificantPoints` only selects and annotates: every output
element equals some input element in every field, differing at most in the
added `significantReason`. -/
theorem c9_frame (wps : List (WPoint K)) (maxPoints : ℕ) (q : WPoint K)
    (hq : q ∈ filterSignificantWeatherPoints wps maxPoints) :
    ∃ p ∈ wps, q = { p with significantReason := q.significantReason } := by
  have hfold : ∀ q', q' ∈ (intervalIndices wps.length (wps.length / 4)).foldl
      (injStep wps) (pass1 none wps) →
      ∃ p ∈ wps, q' = { p with significantReason := q'.significantReason } :=
    fun q' hq' =>
      injFold_sub wps _ _ (fun q₂ hq₂ => pass1_sub none wps q₂ hq₂) q' hq'
  have hp1 : ∀ q', q' ∈ pass1 (K := K) none wps →
      ∃ p ∈ wps, q' = { p with significantReason := q'.significantReason } :=
    fun q' hq' => pass1_sub none wps q' hq'
  simp only [filterSignificantWeatherPoints] at hq
  split at hq
  · exact ⟨q, hq, rfl⟩
  · split at hq
    all_goals split at hq
    all_goals try simp only [mem_stableSort] at hq
    all_goals try (replace hq := List.take_subset _ _ hq; simp only [mem_stableSort] at hq)
    all_goals first
    | exact hfold q hq
    | exact hp1 q hq

/-- Constructor for concrete test points over ℚ. -/
def wpt (t pr : ℚ) (st en : Bool) : WPoint ℚ :=
  { lat := 0, lon := 0, time := t, geometryIndex := 0, isStart := st, isEnd := en,
    weather := some { temperature := 10, precipitation := pr, weatherCode := 0 },
    significantReason := none }

/-- Witness for C9 at a concrete 2-point input (short input is returned
unchanged). -/
theorem c9_frame_witness :
    ∃ p ∈ [wpt 0 0 true false, wpt 1 0 false true],
      wpt 0 0 true false = { p with
        significantReason := (wpt 0 0 true false).significantReason } :=
  c9_frame [wpt 0 0 true false, wpt 1 0 false true] 8 (wpt 0 0 true false)
    (by norm_num [filterSignificantWeatherPoints])

/-- 20 samples, flagged start and end, precipitation alternating 0 and 1 so
that every consecutive pair flips the rain state; temperatures and weather
codes constant. -/
def c2Input : List (WPoint ℚ) :=
  [wpt 0 0 true false, wpt 1 1 false false, wpt 2 0 false false, wpt 3 1 false false,
   wpt 4 0 false false, wpt 5 1 false false, wpt 6 0 false false, wpt 7 1 false false,
   wpt 8 0 false false, wpt 9 1 false false, wpt 10 0 false false, wpt 11 1 false false,
   wpt 12 0 false false, wpt 13 1 false false, wpt 14 0 false false, wpt 15 1 false false,
   wpt 16 0 false false, wpt 17 1 false false, wpt 18 0 false false, wpt 19 1 false true]

/-- **C2 (failing input).** With the default `maxPoints = 8` and a 20-point
input (length > 3) whose first element `isStart` and last element `isEnd`,
the filter returns the 8 earliest `rain_start` points — the first input
element (time 0) and the last input element (time 19) are both dropped,
because `priority[significantReason] || 6` evaluates `priority['start'] = 0`
as falsy (so `start` ranks 6, i.e. last) and the end point's reason was
overwritten to `rain_start` (ranked by arrival order). -/
theorem c2_failing_eval :
    3 < c2Input.length ∧
    (∃ p, c2Input.head? = some p ∧ p.isStart = true ∧ p.time = 0) ∧
    (∃ q, c2Input.getLast? = some q ∧ q.isEnd = true ∧ q.time = 19) ∧
    (filterSignificantWeatherPoints c2Input 8).map (fun p => p.time) =
      [1, 3, 5, 7, 9, 11, 13, 15] ∧
    (∀ q ∈ filterSignificantWeatherPoints c2Input 8, q.time ≠ 0 ∧ q.time ≠ 19) := by
  refine ⟨by norm_num [c2Input], ⟨wpt 0 0 true false, by norm_num [c2Input], rfl, rfl⟩,
    ⟨wpt 19 1 false true, by norm_num [c2Input], rfl, rfl⟩, ?_, ?_⟩ <;>
  norm_num [filterSignificantWeatherPoints, c2Input, wpt, pass1, classify,
    hasPrecipitation, isRainyCode, weatherCategory, stableSort, insertSorted,
    intervalIndices, injStep, jsPriority, reasonPriorityTable]

/-- 4 samples: start, a rain onset, a rain end, an unexceptional end. -/
def c3Input : List (WPoint ℚ) :=
  [wpt 0 0 true false, wpt 1 1 false false, wpt 2 0 false false, wpt 3 0 false true]

/-- **C3 (failing input).** Pass 1 classifies the four points as `start`,
`rain_start`, `rain_end`, `end`.  Under the claim's priorities
(start = 0, end = 1, rain_start = 2, ...) the two kept points for
`maxPoints = 2` would be the start and end points; the code instead ranks
`start` at 6 (`0 || 6` is 6 in JavaScript) and keeps the end and rain-onset
points. -/
theorem c3_failing_eval :
    filterSignificantWeatherPoints c3Input 2 =
      [{ wpt 1 1 false false with significantReason := some Reason.rain_start },
       { wpt 3 0 false true with significantReason := some Reason.trip_end }] ∧
    (∀ q ∈ filterSignificantWeatherPoints c3Input 2,
      q.significantReason ≠ some Reason.trip_start) ∧
    jsPriority ({ wpt 0 0 true false with
      significantReason := some Reason.trip_start } : WPoint ℚ) = 6 := by
  refine ⟨?_, ?_, rfl⟩ <;>
  (norm_num [filterSignificantWeatherPoints, c3Input, wpt, pass1, classify,
    hasPrecipitation, isRainyCode, weatherCategory, stableSort, insertSorted,
    intervalIndices, injStep, jsPriority, reasonPriorityTable]
   try decide)

end FilterClaims

section Colorer

variable {K : Type} [LinearOrderedField K]

/-- The "dangerous" WMO codes of the source: freezing drizzle/rain, snow,
snow showers, thunderstorms. -/
def dangerousCodes : List ℤ := [56, 57, 66, 67, 71, 73, 75, 77, 85, 86, 95, 96, 99]

/-- `getColorForWeather(weather)` from the source: grey for an absent
observation, red for a dangerous code regardless of precipitation, otherwise
by precipitation amount. -/
def getColorForWeather (w : Option (Weather K)) : String :=
  match w with
  | none => "#94a3b8"
  | some weather =>
      if weather.weatherCode ∈ dangerousCodes then "#ef4444"
      else if weather.precipitation ≤ 0 then "#22c55e"
      else if weather.precipitation < 0.5 then "#fbbf24"
      else if weather.precipitation < 2 then "#f97316"
      else "#ef4444"

/-- The index resolution of one weather-point pair in `createRouteSegments`:
`findIndex(d => d >= distance)` for both boundaries, then
`if (startIdx <= 0) startIdx = 0; if (endIdx <= 0) endIdx = len - 1;
if (endIdx >= len) endIdx = len - 1; if (startIdx > endIdx) startIdx =
endIdx`. -/
def resolvePairIndices (cum : List K) (glen : ℕ) (sd ed : K) : ℤ × ℤ :=
  let rawS := jsFindIndex (fun d => decide (sd ≤ d)) cum
  let rawE := jsFindIndex (fun d => decide (ed ≤ d)) cum
  let s0 : ℤ := if rawS ≤ 0 then 0 else rawS
  let e0 : ℤ := if rawE ≤ 0 then (glen : ℤ) - 1 else rawE
  let e1 : ℤ := if (glen : ℤ) ≤ e0 then (glen : ℤ) - 1 else e0
  (if e1 < s0 then e1 else s0, e1)

/-- The loop body of `createRouteSegments` for one consecutive weather-point
pair: resolve the index bracket, slice, skip slices shorter than 2, split at
the midpoint, emit each half (colored by its endpoint's weather) when it has
at least 2 points. -/
def segmentsForPair (g : List (K × K)) (cum : List K) (total D t0 : K)
    (pr : WPoint K × WPoint K) : List (RouteSegment K) :=
  let startDistance := ((pr.1.time - t0) / (D * 1000)) * total
  let endDistance := ((pr.2.time - t0) / (D * 1000)) * total
  let idx := resolvePairIndices cum g.length startDistance endDistance
  let fullSegmentPositions := (g.drop idx.1.toNat).take (idx.2 + 1 - idx.1).toNat
  if fullSegmentPositions.length < 2 then []
  else
    let splitIndex := fullSegmentPositions.length / 2
    let positionsPart1 := fullSegmentPositions.take (splitIndex + 1)
    let positionsPart2 := fullSegmentPositions.drop splitIndex
    (if 1 < positionsPart1.length then
      [{ positions := positionsPart1, color := getColorForWeather pr.1.weather,
         weather := pr.1.weather, precipitation := none }]
     else []) ++
    (if 1 < positionsPart2.length then
      [{ positions := positionsPart2, color := getColorForWeather pr.2.weather,
         weather := pr.2.weather, precipitation := none }]
     else [])

/-- The fallback segment: the whole polyline in the neutral color. -/
def neutralSegment (g : List (K × K)) : RouteSegment K :=
  { positions := g, color := "#58a6ff", weather := none, precipitation := some 0 }

/-- The per-pair loop of `createRouteSegments`, over all consecutive
weather-point pairs in order. -/
def pairSegments (dist : K → K → K → K → K) (g : List (K × K))
    (wps : List (WPoint K)) (D t0 : K) : List (RouteSegment K) :=
  (wps.zip wps.tail).flatMap
    (segmentsForPair g (cumulativeDistances dist g)
      ((cumulativeDistances dist g).getLastD 0) D t0)

/-- `createRouteSegments(geometry, weatherPoints, totalDuration, startTime)`
from the source, parametric in the distance function. -/
def createRouteSegments (dist : K → K → K → K → K) (g : List (K × K))
    (wps : List (WPoint K)) (D t0 : K) : List (RouteSegment K) :=
  if wps.length < 2 then [neutralSegment g]
  else
    let segments := pairSegments dist g wps D t0
    if segments.length = 0 then [neutralSegment g]
    else segments

end Colorer

/-- The segment colorer as run by the program: `createRouteSegments` with the
haversine distance over the reals. -/
noncomputable def createRouteSegmentsR (g : List (ℝ × ℝ)) (wps : List (WPoint ℝ))
    (D t0 : ℝ) : List (RouteSegment ℝ) :=
  createRouteSegments haversineDistance g wps D t0

/-- The per-pair loop as run by the program. -/
noncomputable def pairSegmentsR (g : List (ℝ × ℝ)) (wps : List (WPoint ℝ))
    (D t0 : ℝ) : List (RouteSegment ℝ) :=
  pairSegments haversineDistance g wps D t0

/-- **C5.** `weatherToColor` is a pure function of the observation: absent →
grey `#94a3b8`; a weather code in `{56,57,66,67,71,73,75,77,85,86,95,96,99}`
→ red `#ef4444` regardless of precipitation (in particular code 95 with
precipitation 0); otherwise precipitation ≤ 0 → green `#22c55e`, < 0.5 mm →
yellow `#fbbf24`, < 2.0 mm → orange `#f97316`, ≥ 2.0 mm → red `#ef4444`. -/
theorem c5_color_mapping {K : Type} [LinearOrderedField K] :
    (getColorForWeather (none : Option (Weather K)) = "#94a3b8") ∧
    (∀ w : Weather K,
      (w.weatherCode ∈ dangerousCodes → getColorForWeather (some w) = "#ef4444") ∧
      (w.weatherCode ∉ dangerousCodes →
        ((w.precipitation ≤ 0 → getColorForWeather (some w) = "#22c55e") ∧
         (0 < w.precipitation → w.precipitation < 0.5 →
            getColorForWeather (some w) = "#fbbf24") ∧
         (0.5 ≤ w.precipitation → w.precipitation < 2 →
            getColorForWeather (some w) = "#f97316") ∧
         (2 ≤ w.precipitation → getColorForWeather (some w) = "#ef4444")))) ∧
    (∀ t : K, getColorForWeather
      (some { temperature := t, precipitation := 0, weatherCode := 95 }) = "#ef4444") := by
  refine ⟨rfl, ?_, ?_⟩
  · intro w
    constructor
    · intro hd
      simp [getColorForWeather, hd]
    · intro hd
      refine ⟨?_, ?_, ?_, ?_⟩
      · intro h0
        simp [getColorForWeather, hd, h0]
      · intro h0 h05
        rw [getColorForWeather]
        rw [if_neg hd, if_neg (by linarith), if_pos h05]
      · intro h05 h2
        rw [getColorForWeather]
        rw [if_neg hd, if_neg (by linarith), if_neg (by linarith), if_pos h2]
      · intro h2
        rw [getColorForWeather]
        rw [if_neg hd, if_neg (by linarith), if_neg (by linarith), if_neg (by linarith)]
  · intro t
    have h95 : (95 : ℤ) ∈ dangerousCodes := by decide
    simp [getColorForWeather, h95]

/-- Witness for C5: thunderstorm code 95 with zero precipitation is red, over
ℚ. -/
theorem c5_color_mapping_witness :
    getColorForWeather
      (some { temperature := (20 : ℚ), precipitation := 0, weatherCode := 95 }) =
      "#ef4444" :=
  (c5_color_mapping (K := ℚ)).2.2 20

/-- **C8.** `createRouteSegments` never raises: with fewer than 2 weather
samples it returns exactly the single neutral full-polyline segment; when the
per-pair loop emits zero segments it returns the same fallback; and the
output is never empty. -/
theorem c8_fallback (g : List (ℝ × ℝ)) (wps : List (WPoint ℝ)) (D t0 : ℝ) :
    (wps.length < 2 → createRouteSegmentsR g wps D t0 = [neutralSegment g]) ∧
    (pairSegmentsR g wps D t0 = [] → createRouteSegmentsR g wps D t0 = [neutralSegment g]) ∧
    createRouteSegmentsR g wps D t0 ≠ [] := by
  unfold createRouteSegmentsR createRouteSegments pairSegmentsR
  refine ⟨fun h2 => by rw [if_pos h2], fun hempty => ?_, ?_⟩
  · split
    · rfl
    · simp [hempty]
  · split
    · simp
    · by_cases hc : (pairSegments haversineDistance g wps D t0).length = 0
      · simp [hc]
      · simp only [if_neg hc]
        intro h
        rw [h] at hc
        simp at hc

/-- The index-resolution rule as claim C6 states it: the first-index-≥-target
search result clamped to the range `[0, polyline.length - 1]` for both
boundaries, then the start collapsed to the end when it exceeds it. -/
def resolvePairIndicesClaim {K : Type} [LinearOrderedField K]
    (cum : List K) (glen : ℕ) (sd ed : K) : ℤ × ℤ :=
  let clamp : ℤ → ℤ := fun z => max 0 (min z ((glen : ℤ) - 1))
  let s0 := clamp (jsFindIndex (fun d => decide (sd ≤ d)) cum)
  let e0 := clamp (jsFindIndex (fun d => decide (ed ≤ d)) cum)
  (if e0 < s0 then e0 else s0, e0)

/-- **C6 (counterexample).** On the table `[0, 0]` (a duplicated-point
polyline of length 2) with both target distances 0 — reachable whenever the
total route distance is 0 — the code resolves the pair to `(0, 1)`: the end
boundary's raw search result 0 is mapped to `length - 1 = 1` by
`if (endIdx <= 0) endIdx = geometry.length - 1`, not clamped to 0 as the
claim states; the claimed rule gives `(0, 0)`. -/
theorem c6_counterexample :
    resolvePairIndices ([0, 0] : List ℚ) 2 0 0 = (0, 1) ∧
    resolvePairIndicesClaim ([0, 0] : List ℚ) 2 0 0 = (0, 0) ∧
    resolvePairIndices ([0, 0] : List ℚ) 2 0 0 ≠
      resolvePairIndicesClaim ([0, 0] : List ℚ) 2 0 0 := by
  refine ⟨by decide, by decide, by decide⟩

/-- **C6 (amended).** In `createRouteSegments`, for each consecutive
weather-sample pair, each boundary's target distance is mapped through the
first-index-whose-cumulative-distance-is-≥-target search; the START index
maps a search result ≤ 0 (including not-found, −1) to 0, the END index maps
a search result ≤ 0 to `polyline.length - 1` and is clamped above to
`polyline.length - 1`; finally a start index exceeding the end index is
collapsed to the end index.  Consequently both resolved indices lie in
`[0, polyline.length - 1]` and start ≤ end. -/
theorem c6_amended {K : Type} [LinearOrderedField K] (cum : List K) (glen : ℕ)
    (sd ed : K) (hlen : cum.length = glen) (hpos : 1 ≤ glen) :
    0 ≤ (resolvePairIndices cum glen sd ed).1 ∧
    (resolvePairIndices cum glen sd ed).1 ≤ (resolvePairIndices cum glen sd ed).2 ∧
    (resolvePairIndices cum glen sd ed).2 ≤ (glen : ℤ) - 1 ∧
    (jsFindIndex (fun d => decide (ed ≤ d)) cum ≤ 0 →
      (resolvePairIndices cum glen sd ed).2 = (glen : ℤ) - 1) ∧
    (0 < jsFindIndex (fun d => decide (ed ≤ d)) cum →
      (resolvePairIndices cum glen sd ed).2 =
        jsFindIndex (fun d => decide (ed ≤ d)) cum) ∧
    (jsFindIndex (fun d => decide (sd ≤ d)) cum ≤ 0 →
      (resolvePairIndices cum glen sd ed).1 = 0) ∧
    (0 < jsFindIndex (fun d => decide (sd ≤ d)) cum →
      (resolvePairIndices cum glen sd ed).1 =
        min (jsFindIndex (fun d => decide (sd ≤ d)) cum)
          (resolvePairIndices cum glen sd ed).2) := by
  have hElt := jsFindIndex_lt_length (fun d => decide (ed ≤ d)) cum
  have hEge := jsFindIndex_ge_neg_one (fun d => decide (ed ≤ d)) cum
  have hSlt := jsFindIndex_lt_length (fun d => decide (sd ≤ d)) cum
  have hSge := jsFindIndex_ge_neg_one (fun d => decide (sd ≤ d)) cum
  rw [hlen] at hElt hSlt
  simp only [resolvePairIndices]
  split_ifs
  all_goals
    refine ⟨by omega, by omega, by omega, fun h => by omega, fun h => by omega,
      fun h => by omega, fun h => by omega⟩

/-- Witness for C6 (amended) at the concrete table `[0]` with a 1-point
polyline and both targets 1. -/
theorem c6_amended_witness :
    0 ≤ (resolvePairIndices ([0] : List ℚ) 1 1 1).1 ∧
    (resolvePairIndices ([0] : List ℚ) 1 1 1).1 ≤
      (resolvePairIndices ([0] : List ℚ) 1 1 1).2 := by
  have h := c6_amended ([0] : List ℚ) 1 1 1 (by decide) (by decide)
  exact ⟨h.1, h.2.1⟩

section JoinDedup

variable {P : Type} [DecidableEq P]

/-- Append a segment's position run onto the accumulated path, dropping the
segment's first point when it duplicates the path's current endpoint (the
deliberate shared-boundary overlap of consecutive segments). -/
def dedupAppend (acc : List P) : List P → List P
  | [] => acc ++ []
  | b :: bs =>
      match acc.getLast? with
      | some a => if a = b then acc ++ bs else acc ++ (b :: bs)
      | none => acc ++ (b :: bs)

/-- Concatenate all segments' position runs, removing duplicated shared
boundary points. -/
def joinDedup (lss : List (List P)) : List P := lss.foldl dedupAppend []

lemma dedupAppend_nil_left (next : List P) : dedupAppend [] next = next := by
  cases next <;> simp [dedupAppend]

/-- The inclusive slice `g[a..b]` of a list. -/
def extract (g : List P) (a b : ℕ) : List P := (g.drop a).take (b + 1 - a)

lemma extract_length (g : List P) (a b : ℕ) (hab : a ≤ b) (hb : b < g.length) :
    (extract g a b).length = b + 1 - a := by
  simp only [extract, List.length_take, List.length_drop]
  omega

lemma extract_ne_nil (g : List P) (a b : ℕ) (hab : a ≤ b) (hb : b < g.length) :
    extract g a b ≠ [] := by
  intro h
  have := extract_length g a b hab hb
  rw [h] at this
  simp at this
  omega

lemma extract_getElem? (g : List P) (a b i : ℕ) (hi : i < b + 1 - a) :
    (extract g a b)[i]? = g[a + i]? := by
  simp only [extract]
  rw [List.getElem?_take_of_lt hi, List.getElem?_drop]

lemma extract_head? (g : List P) (a b : ℕ) (hab : a ≤ b) (hb : b < g.length) :
    (extract g a b).head? = g[a]? := by
  rw [List.head?_eq_getElem?, extract_getElem? g a b 0 (by omega), Nat.add_zero]

lemma extract_getLast? (g : List P) (a b : ℕ) (hab : a ≤ b) (hb : b < g.length) :
    (extract g a b).getLast? = g[b]? := by
  rw [List.getLast?_eq_getElem?, extract_length g a b hab hb]
  rw [extract_getElem? g a b (b + 1 - a - 1) (by omega)]
  congr 1
  omega

lemma extract_tail (g : List P) (m b : ℕ) :
    (extract g m b).tail = (g.drop (m + 1)).take (b - m) := by
  simp only [extract]
  rw [← List.drop_one, List.drop_take, List.drop_drop]
  have h1 : b + 1 - m - 1 = b - m := by omega
  rw [h1]

lemma extract_append_tail (g : List P) (lo m b : ℕ) (h1 : lo ≤ m) (h2 : m ≤ b)
    (hb : b < g.length) :
    extract g lo m ++ (extract g m b).tail = extract g lo b := by
  rw [extract_tail]
  simp only [extract]
  have hsum : b + 1 - lo = (m + 1 - lo) + (b - m) := by omega
  rw [hsum, List.take_add]
  have hdd : (List.drop lo g).drop (m + 1 - lo) = List.drop (m + 1) g := by
    rw [List.drop_drop]
    congr 1
    omega
  rw [hdd]

lemma dedupAppend_cons_last (acc : List P) (a : P) (bs : List P)
    (ha : acc.getLast? = some a) :
    dedupAppend acc (a :: bs) = acc ++ bs := by
  simp [dedupAppend, ha]

/-- Gluing a later slice onto the accumulated slice through the shared
boundary point. -/
lemma dedupAppend_extract (g : List P) (lo m b : ℕ) (h1 : lo ≤ m) (h2 : m ≤ b)
    (hb : b < g.length) :
    dedupAppend (extract g lo m) (extract g m b) = extract g lo b := by
  have hm : m < g.length := by omega
  have hne : extract g m b ≠ [] := extract_ne_nil g m b h2 hb
  obtain ⟨x, xs, hxs⟩ := List.exists_cons_of_ne_nil hne
  have hx : x = g.get ⟨m, hm⟩ := by
    have h := extract_head? g m b h2 hb
    rw [hxs] at h
    simp only [List.head?_cons] at h
    rw [List.getElem?_eq_getElem hm] at h
    have h' := Option.some.inj h
    rw [h']
    simp
  subst hx
  have hlast : (extract g lo m).getLast? = some (g.get ⟨m, hm⟩) := by
    rw [extract_getLast? g lo m h1 (by omega), List.getElem?_eq_getElem hm]
    simp
  have hxs_tail : xs = (extract g m b).tail := by rw [hxs]; rfl
  rw [hxs, dedupAppend_cons_last _ _ _ hlast, hxs_tail,
    extract_append_tail g lo m b h1 h2 hb]

lemma extract_take (g : List P) (a b k : ℕ) (hab : a ≤ b) (hk : k ≤ b - a) :
    (extract g a b).take (k + 1) = extract g a (a + k) := by
  simp only [extract, List.take_take]
  have h : min (k + 1) (b + 1 - a) = a + k + 1 - a := by omega
  rw [h]

lemma extract_drop (g : List P) (a b k : ℕ) :
    (extract g a b).drop k = extract g (a + k) b := by
  simp only [extract]
  rw [List.drop_take, List.drop_drop]
  have h1 : b + 1 - a - k = b + 1 - (a + k) := by omega
  rw [h1]

/-- The position runs emitted by one pair whose bracket resolved to
`[a, b]`: the slice, split at its midpoint, each half kept when it has at
least 2 points. -/
def posParts (g : List P) (a b : ℕ) : List (List P) :=
  let full := extract g a b
  if full.length < 2 then []
  else
    let split := full.length / 2
    (if 1 < (full.take (split + 1)).length then [full.take (split + 1)] else []) ++
      (if 1 < (full.drop split).length then [full.drop split] else [])

/-- Folding one pair's emitted runs into the accumulated path preserves the
slice invariant, moving its right end from `a` to `b`. -/
lemma foldl_dedupAppend_posParts (g : List P) (a b : ℕ) (hab : a ≤ b)
    (hb : b < g.length) (acc : List P)
    (hacc : acc = [] ∨ ∃ lo, lo ≤ a ∧ acc = extract g lo a) :
    (posParts g a b).foldl dedupAppend acc = [] ∨
      ∃ lo, lo ≤ b ∧ (posParts g a b).foldl dedupAppend acc = extract g lo b := by
  have hlen : (extract g a b).length = b + 1 - a := extract_length g a b hab hb
  by_cases hba : b = a
  · have h1 : (extract g a b).length < 2 := by omega
    rw [posParts, if_pos h1]
    simp only [List.foldl_nil]
    rcases hacc with rfl | ⟨lo, hlo, rfl⟩
    · exact Or.inl rfl
    · exact Or.inr ⟨lo, by omega, by rw [hba]⟩
  · have hablt : a < b := by omega
    have hL2 : ¬ (extract g a b).length < 2 := by omega
    set L := (extract g a b).length with hLdef
    set split := L / 2 with hsplit
    have hsplit1 : 1 ≤ split := by omega
    have hsplitle : split ≤ b - a := by omega
    have hpart1 : (extract g a b).take (split + 1) = extract g a (a + split) :=
      extract_take g a b split hab hsplitle
    have hpart2 : (extract g a b).drop split = extract g (a + split) b :=
      extract_drop g a b split
    have hp1len : (extract g a (a + split)).length = split + 1 := by
      rw [extract_length g a (a + split) (by omega) (by omega)]
      omega
    have hp2len : (extract g (a + split) b).length = b + 1 - (a + split) :=
      extract_length g (a + split) b (by omega) hb
    have hstep : ∀ acc', (acc' = [] ∨ ∃ lo, lo ≤ a ∧ acc' = extract g lo a) →
        dedupAppend acc' (extract g a (a + split)) = extract g a (a + split) ∨
        ∃ lo, lo ≤ a ∧ dedupAppend acc' (extract g a (a + split)) =
          extract g lo (a + split) := by
      intro acc' hacc'
      rcases hacc' with rfl | ⟨lo, hlo, rfl⟩
      · left
        exact dedupAppend_nil_left _
      · right
        exact ⟨lo, hlo, dedupAppend_extract g lo a (a + split) hlo (by omega) (by omega)⟩
    rw [posParts]
    simp only [← hLdef, if_neg hL2, ← hsplit, hpart1, hpart2, hp1len, hp2len]
    rw [if_pos (by omega)]
    by_cases hp2 : 1 < b + 1 - (a + split)
    · rw [if_pos hp2]
      simp only [List.singleton_append, List.foldl_cons, List.foldl_nil]
      rcases hstep acc hacc with heq | ⟨lo, hlo, heq⟩
      · rw [heq]
        right
        exact ⟨a, by omega, dedupAppend_extract g a (a + split) b (by omega) (by omega) hb⟩
      · rw [heq]
        right
        exact ⟨lo, by omega, dedupAppend_extract g lo (a + split) b (by omega) (by omega) hb⟩
    · -- the second half has a single point: the first half already reaches b
      have hmb : a + split = b := by omega
      rw [if_neg hp2]
      simp only [List.append_nil, List.foldl_cons, List.foldl_nil]
      rcases hstep acc hacc with heq | ⟨lo, hlo, heq⟩
      · rw [heq, hmb]
        right
        exact ⟨a, by omega, rfl⟩
      · rw [heq, hmb]
        right
        exact ⟨lo, by omega, rfl⟩

lemma foldl_flatMap {α β γ : Type} (h : β → γ → β) (f : α → List γ) (l : List α)
    (init : β) :
    (l.flatMap f).foldl h init = l.foldl (fun acc x => (f x).foldl h acc) init := by
  induction l generalizing init with
  | nil => rfl
  | cons a as ih => simp [List.flatMap_cons, List.foldl_append, ih]

/-- Folding all pairs of a non-decreasing, in-bounds boundary chain yields a
contiguous slice of `g` (or nothing). -/
lemma chainFold (g : List P) (bs : List ℕ) (b0 : ℕ) (acc : List P)
    (hch : List.Chain' (· ≤ ·) (b0 :: bs)) (hlt : ∀ x ∈ b0 :: bs, x < g.length)
    (hacc : acc = [] ∨ ∃ lo, lo ≤ b0 ∧ acc = extract g lo b0) :
    ((b0 :: bs).zip bs).foldl
        (fun acc pr => (posParts g pr.1 pr.2).foldl dedupAppend acc) acc = [] ∨
      ∃ lo hi, lo ≤ hi ∧ hi < g.length ∧
        ((b0 :: bs).zip bs).foldl
          (fun acc pr => (posParts g pr.1 pr.2).foldl dedupAppend acc) acc =
          extract g lo hi := by
  induction bs generalizing b0 acc with
  | nil =>
      simp only [List.zip_nil_right, List.foldl_nil]
      rcases hacc with rfl | ⟨lo, hlo, rfl⟩
      · exact Or.inl rfl
      · exact Or.inr ⟨lo, b0, hlo, hlt b0 (by simp), rfl⟩
  | cons b1 bs ih =>
      simp only [List.zip_cons_cons, List.foldl_cons]
      have hb01 : b0 ≤ b1 := List.chain'_cons.mp hch |>.1
      have hch' : List.Chain' (· ≤ ·) (b1 :: bs) := List.chain'_cons.mp hch |>.2
      have hlt' : ∀ x ∈ b1 :: bs, x < g.length := fun x hx => hlt x (by simp [hx])
      have hacc' := foldl_dedupAppend_posParts g b0 b1 hb01 (hlt' b1 (by simp)) acc hacc
      rcases hacc' with heq | ⟨lo, hlo, heq⟩
      · exact ih b1 _ hch' hlt' (Or.inl heq)
      · exact ih b1 _ hch' hlt' (Or.inr ⟨lo, hlo, heq⟩)

/-- `joinDedup` of the runs of a boundary chain is a contiguous slice. -/
lemma joinDedup_boundary (g : List P) (bs : List ℕ)
    (hch : List.Chain' (· ≤ ·) bs) (hlt : ∀ x ∈ bs, x < g.length) :
    joinDedup ((bs.zip bs.tail).flatMap (fun pr => posParts g pr.1 pr.2)) = [] ∨
      ∃ lo hi, lo ≤ hi ∧ hi < g.length ∧
        joinDedup ((bs.zip bs.tail).flatMap (fun pr => posParts g pr.1 pr.2)) =
          extract g lo hi := by
  cases bs with
  | nil => exact Or.inl rfl
  | cons b0 bs =>
      rw [joinDedup, foldl_flatMap]
      exact chainFold g bs b0 [] hch hlt (Or.inl rfl)

end JoinDedup

section PairAnalysis

variable {K : Type} [LinearOrderedField K] [FloorRing K]

/-- The target cumulative distance of a weather point: elapsed-time fraction
of the total distance. -/
def targetDist (D t0 total : K) (w : WPoint K) : K :=
  ((w.time - t0) / (D * 1000)) * total

/-- The raw `findIndex` result for a weather point's target distance. -/
def rawIndex (dist : K → K → K → K → K) (g : List (K × K)) (D t0 : K)
    (w : WPoint K) : ℤ :=
  jsFindIndex
    (fun d => decide (targetDist D t0 ((cumulativeDistances dist g).getLastD 0) w ≤ d))
    (cumulativeDistances dist g)

/-- The resolved boundary index of a weather point (negative raw results
collapse to 0). -/
def boundaryIndex (dist : K → K → K → K → K) (g : List (K × K)) (D t0 : K)
    (w : WPoint K) : ℕ :=
  (max (rawIndex dist g D t0 w) 0).toNat

lemma length_ge_two_of_total_pos (dist : K → K → K → K → K) (g : List (K × K))
    (htot : 0 < (cumulativeDistances dist g).getLastD 0) : 2 ≤ g.length := by
  match g with
  | [] => simp [cumulativeDistances] at htot
  | [p] => simp [cumulativeDistances, cumAux] at htot
  | p :: q :: rest => simp

lemma targetDist_le_total (dist : K → K → K → K → K) (g : List (K × K)) (D t0 : K)
    (hD : 0 < D) (htot : 0 < (cumulativeDistances dist g).getLastD 0) (w : WPoint K)
    (hle : w.time ≤ t0 + D * 1000) :
    targetDist D t0 ((cumulativeDistances dist g).getLastD 0) w ≤
      (cumulativeDistances dist g).getLastD 0 := by
  set T := (cumulativeDistances dist g).getLastD 0 with hT
  have hD1000 : (0 : K) < D * 1000 := by positivity
  have hfrac : (w.time - t0) / (D * 1000) ≤ 1 := by
    rw [div_le_one hD1000]
    linarith
  rw [targetDist]
  nlinarith

lemma targetDist_pos (dist : K → K → K → K → K) (g : List (K × K)) (D t0 : K)
    (hD : 0 < D) (htot : 0 < (cumulativeDistances dist g).getLastD 0) (w : WPoint K)
    (hpos : t0 < w.time) :
    0 < targetDist D t0 ((cumulativeDistances dist g).getLastD 0) w := by
  have hD1000 : (0 : K) < D * 1000 := by positivity
  rw [targetDist]
  have h1 : 0 < (w.time - t0) / (D * 1000) := div_pos (by linarith) hD1000
  positivity

lemma targetDist_mono (dist : K → K → K → K → K) (g : List (K × K)) (D t0 : K)
    (hD : 0 < D) (htot : 0 < (cumulativeDistances dist g).getLastD 0)
    (w1 w2 : WPoint K) (h12 : w1.time ≤ w2.time) :
    targetDist D t0 ((cumulativeDistances dist g).getLastD 0) w1 ≤
      targetDist D t0 ((cumulativeDistances dist g).getLastD 0) w2 := by
  have hD1000 : (0 : K) < D * 1000 := by positivity
  simp only [targetDist]
  have h1 : (w1.time - t0) / (D * 1000) ≤ (w2.time - t0) / (D * 1000) := by
    apply div_le_div_of_nonneg_right ?_ hD1000.le
    linarith
  nlinarith

lemma rawIndex_found (dist : K → K → K → K → K) (g : List (K × K)) (D t0 : K)
    (hD : 0 < D) (htot : 0 < (cumulativeDistances dist g).getLastD 0) (w : WPoint K)
    (hle : w.time ≤ t0 + D * 1000) :
    0 ≤ rawIndex dist g D t0 w :=
  segSearch_found dist g _ (targetDist_le_total dist g D t0 hD htot w hle)

lemma rawIndex_lt (dist : K → K → K → K → K) (g : List (K × K)) (D t0 : K)
    (hg : g ≠ []) (w : WPoint K) :
    rawIndex dist g D t0 w < (g.length : ℤ) := by
  have h := jsFindIndex_lt_length
    (fun d => decide (targetDist D t0 ((cumulativeDistances dist g).getLastD 0) w ≤ d))
    (cumulativeDistances dist g)
  rwa [cumulativeDistances_length dist g hg] at h

lemma rawIndex_pos (dist : K → K → K → K → K) (g : List (K × K)) (D t0 : K)
    (hD : 0 < D) (htot : 0 < (cumulativeDistances dist g).getLastD 0) (w : WPoint K)
    (hpos : t0 < w.time) (hle : w.time ≤ t0 + D * 1000) :
    1 ≤ rawIndex dist g D t0 w := by
  have hfound := rawIndex_found dist g D t0 hD htot w hle
  obtain ⟨rest, hrest⟩ := cum_cons dist g
  have htpos := targetDist_pos dist g D t0 hD htot w hpos
  have hne : rawIndex dist g D t0 w ≠ 0 := by
    intro h0
    rw [rawIndex, hrest] at h0
    have := (jsFindIndex_cons_eq_zero_iff _ _ _).mp h0
    simp only [decide_eq_true_eq] at this
    rw [← hrest] at this
    linarith
  omega

lemma rawIndex_mono (dist : K → K → K → K → K) (g : List (K × K)) (D t0 : K)
    (hD : 0 < D) (htot : 0 < (cumulativeDistances dist g).getLastD 0)
    (w1 w2 : WPoint K) (h12 : w1.time ≤ w2.time) (h2le : w2.time ≤ t0 + D * 1000) :
    rawIndex dist g D t0 w1 ≤ rawIndex dist g D t0 w2 := by
  have hfound2 := rawIndex_found dist g D t0 hD htot w2 h2le
  have hmono := targetDist_mono dist g D t0 hD htot w1 w2 h12
  have := jsFindIndex_mono
    (fun d => decide (targetDist D t0 ((cumulativeDistances dist g).getLastD 0) w1 ≤ d))
    (fun d => decide (targetDist D t0 ((cumulativeDistances dist g).getLastD 0) w2 ≤ d))
    (cumulativeDistances dist g)
    (by
      intro x hx
      simp only [decide_eq_true_eq] at hx ⊢
      linarith)
    hfound2
  exact this.2

/-- The actual resolution of one pair's bracket under in-range, ordered
timestamps: exactly the two boundary indices, already ordered and in
bounds. -/
lemma resolvePairIndices_eq_boundary (dist : K → K → K → K → K) (g : List (K × K))
    (D t0 : K) (hD : 0 < D)
    (htot : 0 < (cumulativeDistances dist g).getLastD 0)
    (w1 w2 : WPoint K) (h12 : w1.time ≤ w2.time) (h2pos : t0 < w2.time)
    (h2le : w2.time ≤ t0 + D * 1000) :
    resolvePairIndices (cumulativeDistances dist g) g.length
        (targetDist D t0 ((cumulativeDistances dist g).getLastD 0) w1)
        (targetDist D t0 ((cumulativeDistances dist g).getLastD 0) w2) =
      ((boundaryIndex dist g D t0 w1 : ℤ), (boundaryIndex dist g D t0 w2 : ℤ)) ∧
    boundaryIndex dist g D t0 w1 ≤ boundaryIndex dist g D t0 w2 ∧
    boundaryIndex dist g D t0 w2 < g.length := by
  have hg2 := length_ge_two_of_total_pos dist g htot
  have hgne : g ≠ [] := by
    cases g with
    | nil => simp at hg2
    | cons p ps => simp
  have hr2pos := rawIndex_pos dist g D t0 hD htot w2 h2pos h2le
  have hr2lt := rawIndex_lt dist g D t0 hgne w2
  have hr1lt := rawIndex_lt dist g D t0 hgne w1
  have hr1ge := jsFindIndex_ge_neg_one
    (fun d => decide (targetDist D t0 ((cumulativeDistances dist g).getLastD 0) w1 ≤ d))
    (cumulativeDistances dist g)
  have hrmono := rawIndex_mono dist g D t0 hD htot w1 w2 h12 h2le
  constructor
  · simp only [resolvePairIndices, rawIndex] at *
    have he0 : ¬ (jsFindIndex
        (fun d => decide (targetDist D t0 ((cumulativeDistances dist g).getLastD 0) w2 ≤ d))
        (cumulativeDistances dist g) ≤ 0) := by omega
    rw [if_neg he0, if_neg (by omega)]
    by_cases hs : jsFindIndex
        (fun d => decide (targetDist D t0 ((cumulativeDistances dist g).getLastD 0) w1 ≤ d))
        (cumulativeDistances dist g) ≤ 0
    · rw [if_pos hs, if_neg (by omega)]
      simp only [boundaryIndex, rawIndex, Prod.mk.injEq]
      constructor
      · omega
      · omega
    · rw [if_neg hs, if_neg (by omega)]
      simp only [boundaryIndex, rawIndex, Prod.mk.injEq]
      constructor
      · omega
      · omega
  · constructor
    · simp only [boundaryIndex, rawIndex] at *
      omega
    · simp only [boundaryIndex, rawIndex] at *
      omega

end PairAnalysis

section Assembly

set_option linter.unusedSectionVars false

variable {K : Type} [LinearOrderedField K] [FloorRing K]

lemma map_flatMap_own {α β γ : Type} (f : β → γ) (F : α → List β) (l : List α) :
    (l.flatMap F).map f = l.flatMap (fun a => (F a).map f) := by
  induction l with
  | nil => rfl
  | cons a as ih => simp only [List.flatMap_cons, List.map_append, ih]

lemma flatMap_zip_pairs {α γ : Type} (B : α → ℕ) (g : α × α → List γ)
    (h : ℕ × ℕ → List γ) :
    ∀ l : List α, (∀ pr ∈ l.zip l.tail, g pr = h (B pr.1, B pr.2)) →
      (l.zip l.tail).flatMap g = ((l.map B).zip ((l.map B).tail)).flatMap h
  | [], _ => rfl
  | [a], _ => rfl
  | a :: b :: t, hyp => by
      have h1 := hyp (a, b) (by simp)
      have ih := flatMap_zip_pairs B g h (b :: t)
        (fun pr hpr => hyp pr (by rw [List.tail_cons] at hpr; simp [hpr]))
      simp only [List.map_cons, List.tail_cons, List.zip_cons_cons,
        List.flatMap_cons] at ih ⊢
      rw [h1, ih]

lemma zip_mem_of_mem {α β : Type} :
    ∀ (l1 : List α) (l2 : List β) (pr : α × β), pr ∈ l1.zip l2 → pr.1 ∈ l1 ∧ pr.2 ∈ l2
  | [], _, pr, hpr => by simp at hpr
  | _ :: _, [], pr, hpr => by simp at hpr
  | a :: t1, b :: t2, pr, hpr => by
      rw [List.zip_cons_cons, List.mem_cons] at hpr
      rcases hpr with rfl | hpr
      · exact ⟨by simp, by simp⟩
      · have := zip_mem_of_mem t1 t2 pr hpr
        exact ⟨by simp [this.1], by simp [this.2]⟩

lemma pairwise_strengthen {α : Type} (R S : α → α → Prop) :
    ∀ l : List α, (∀ a ∈ l, ∀ b ∈ l, R a b → S a b) → List.Pairwise R l →
      List.Pairwise S l
  | [], _, _ => List.Pairwise.nil
  | a :: t, h, hpw => by
      rw [List.pairwise_cons] at hpw ⊢
      refine ⟨fun b hb => h a (by simp) b (by simp [hb]) (hpw.1 b hb),
        pairwise_strengthen R S t (fun x hx y hy => h x (by simp [hx]) y (by simp [hy]))
          hpw.2⟩

lemma zip_tail_rel {α : Type} (R : α → α → Prop) :
    ∀ l : List α, List.Pairwise R l → ∀ pr ∈ l.zip l.tail, R pr.1 pr.2
  | [], _, pr, hpr => by simp at hpr
  | [a], _, pr, hpr => by simp at hpr
  | a :: b :: t, hpw, pr, hpr => by
      rw [List.tail_cons, List.zip_cons_cons, List.mem_cons] at hpr
      rcases hpr with rfl | hpr
      · exact (List.pairwise_cons.mp hpw).1 b (by simp)
      · exact zip_tail_rel R (b :: t) (List.pairwise_cons.mp hpw).2 pr hpr

/-- The position runs a pair emits are exactly `posParts` of the resolved
index bracket. -/
lemma segmentsForPair_positions (g : List (K × K)) (cum : List K) (total D t0 : K)
    (pr : WPoint K × WPoint K) (a b : ℕ)
    (hres : resolvePairIndices cum g.length (((pr.1.time - t0) / (D * 1000)) * total)
        (((pr.2.time - t0) / (D * 1000)) * total) = ((a : ℤ), (b : ℤ))) :
    (segmentsForPair g cum total D t0 pr).map (fun s => s.positions) = posParts g a b := by
  simp only [segmentsForPair, hres, posParts, extract]
  have h1 : ((a : ℤ)).toNat = a := by omega
  have h2 : ((b : ℤ) + 1 - (a : ℤ)).toNat = b + 1 - a := by omega
  rw [h1, h2]
  by_cases hflen : ((g.drop a).take (b + 1 - a)).length < 2
  · rw [if_pos hflen, if_pos hflen]
    rfl
  · rw [if_neg hflen, if_neg hflen, List.map_append]
    congr 1
    · by_cases hc : 1 < (((g.drop a).take (b + 1 - a)).take
          (((g.drop a).take (b + 1 - a)).length / 2 + 1)).length
      · rw [if_pos hc, if_pos hc]
        rfl
      · rw [if_neg hc, if_neg hc]
        rfl
    · by_cases hc : 1 < (((g.drop a).take (b + 1 - a)).drop
          (((g.drop a).take (b + 1 - a)).length / 2)).length
      · rw [if_pos hc, if_pos hc]
        rfl
      · rw [if_neg hc, if_neg hc]
        rfl

/-- Under in-range, time-sorted weather points, the position runs of the
per-pair loop are the `posParts` of the non-decreasing boundary-index list. -/
lemma pairSegments_positions (dist : K → K → K → K → K) (g : List (K × K))
    (wps : List (WPoint K)) (D t0 : K) (hD : 0 < D)
    (htot : 0 < (cumulativeDistances dist g).getLastD 0)
    (hpw : List.Pairwise (fun p q : WPoint K => p.time ≤ q.time) wps)
    (htail : ∀ p ∈ wps.tail, t0 < p.time)
    (hle : ∀ p ∈ wps, p.time ≤ t0 + D * 1000) :
    (pairSegments dist g wps D t0).map (fun s => s.positions) =
      ((wps.map (boundaryIndex dist g D t0)).zip
        ((wps.map (boundaryIndex dist g D t0)).tail)).flatMap
        (fun pr => posParts g pr.1 pr.2) := by
  rw [pairSegments, map_flatMap_own]
  have hadj := zip_tail_rel (fun p q : WPoint K => p.time ≤ q.time) wps hpw
  refine flatMap_zip_pairs (boundaryIndex dist g D t0) _
    (fun pr => posParts g pr.1 pr.2) wps ?_
  intro pr hpr
  obtain ⟨w1, w2⟩ := pr
  obtain ⟨h1mem, h2mem⟩ := zip_mem_of_mem wps wps.tail (w1, w2) hpr
  have h2memfull : w2 ∈ wps := List.mem_of_mem_tail h2mem
  have h12 : w1.time ≤ w2.time := hadj (w1, w2) hpr
  have h2pos : t0 < w2.time := htail w2 h2mem
  have h2le : w2.time ≤ t0 + D * 1000 := hle w2 h2memfull
  have hres := (resolvePairIndices_eq_boundary dist g D t0 hD htot w1 w2 h12 h2pos h2le).1
  simp only [targetDist] at hres
  exact segmentsForPair_positions g _ _ D t0 (w1, w2) _ _ hres

/-- The boundary-index list is a non-decreasing chain of in-bounds indices. -/
lemma boundary_chain (dist : K → K → K → K → K) (g : List (K × K))
    (wps : List (WPoint K)) (D t0 : K) (hD : 0 < D)
    (htot : 0 < (cumulativeDistances dist g).getLastD 0)
    (hpw : List.Pairwise (fun p q : WPoint K => p.time ≤ q.time) wps)
    (hle : ∀ p ∈ wps, p.time ≤ t0 + D * 1000) :
    List.Chain' (· ≤ ·) (wps.map (boundaryIndex dist g D t0)) ∧
    ∀ x ∈ wps.map (boundaryIndex dist g D t0), x < g.length := by
  constructor
  · rw [List.chain'_map]
    apply List.Pairwise.chain'
    apply pairwise_strengthen (fun p q : WPoint K => p.time ≤ q.time) _ wps ?_ hpw
    intro p hp q hq hpq
    have := rawIndex_mono dist g D t0 hD htot p q hpq (hle q hq)
    simp only [boundaryIndex]
    omega
  · intro x hx
    obtain ⟨w, hw, rfl⟩ := List.mem_map.mp hx
    have hg2 := length_ge_two_of_total_pos dist g htot
    have hgne : g ≠ [] := by
      cases g with
      | nil => simp at hg2
      | cons p ps => simp
    have := rawIndex_lt dist g D t0 hgne w
    simp only [boundaryIndex]
    omega

end Assembly

/-- **C4 (amended).** For every polyline of positive total distance and every
weather-point list that is time-sorted, strictly after the start time from the
second point on, and within the trip's time span, the concatenation of
`createRouteSegments`' position runs with duplicated shared boundary points
removed is a contiguous slice of the polyline. -/
theorem c4_amended (g : List (ℝ × ℝ)) (wps : List (WPoint ℝ)) (D t0 : ℝ)
    (hD : 0 < D) (htot : 0 < (cumulativeDistancesR g).getLastD 0)
    (hpw : List.Pairwise (fun p q : WPoint ℝ => p.time ≤ q.time) wps)
    (htail : ∀ p ∈ wps.tail, t0 < p.time)
    (hle : ∀ p ∈ wps, p.time ≤ t0 + D * 1000) :
    ∃ lo n, joinDedup ((createRouteSegmentsR g wps D t0).map (fun s => s.positions)) =
      (g.drop lo).take n := by
  have htot' : 0 < (cumulativeDistances haversineDistance g).getLastD 0 := htot
  simp only [createRouteSegmentsR, createRouteSegments]
  by_cases h2 : wps.length < 2
  · rw [if_pos h2]
    refine ⟨0, g.length, ?_⟩
    simp [neutralSegment, joinDedup, dedupAppend_nil_left]
  · rw [if_neg h2]
    by_cases hz : (pairSegments haversineDistance g wps D t0).length = 0
    · rw [if_pos hz]
      refine ⟨0, g.length, ?_⟩
      simp [neutralSegment, joinDedup, dedupAppend_nil_left]
    · rw [if_neg hz]
      rw [pairSegments_positions haversineDistance g wps D t0 hD htot' hpw htail hle]
      obtain ⟨hch, hlt⟩ := boundary_chain haversineDistance g wps D t0 hD htot' hpw hle
      rcases joinDedup_boundary g (wps.map (boundaryIndex haversineDistance g D t0))
          hch hlt with hnil | ⟨lo, hi, hlohi, hhig, heq⟩
      · exact ⟨0, 0, by rw [hnil]; simp⟩
      · exact ⟨lo, hi + 1 - lo, by rw [heq]; rfl⟩

/-- A plain weather point (no observation, no reason) at a given time. -/
def wpR (t : ℝ) : WPoint ℝ :=
  { lat := 0, lon := 0, time := t, geometryIndex := 0, isStart := false, isEnd := false,
    weather := none, significantReason := none }

/-- Witness for the amended C4 on a genuine two-point route. -/
theorem c4_amended_witness :
    ∃ lo n, joinDedup ((createRouteSegmentsR [((0 : ℝ), 0), (0, 180)]
        [wpR 0, wpR 3600000] 3600 0).map (fun s => s.positions)) =
      (([((0 : ℝ), 0), (0, 180)]).drop lo).take n :=
  c4_amended [((0 : ℝ), 0), (0, 180)] [wpR 0, wpR 3600000] 3600 0
    (by norm_num)
    (by
      simp [cumulativeDistancesR, cumulativeDistances, cumAux, haversineDistance_antipodal]
      positivity)
    (by norm_num [List.pairwise_cons, wpR])
    (by
      intro p hp
      have hp2 : p = wpR 3600000 := by simpa using hp
      rw [hp2]
      norm_num [wpR])
    (by
      intro p hp
      have hp2 : p = wpR 0 ∨ p = wpR 3600000 := by simpa using hp
      rcases hp2 with rfl | rfl <;> norm_num [wpR])

/-- The three-fold duplicated-origin polyline. -/
def g3 : List (ℝ × ℝ) := [(0, 0), (0, 0), (0, 0)]

/-- Three plain weather samples one hour apart. -/
def wps3 : List (WPoint ℝ) := [wpR 0, wpR 3600000, wpR 7200000]

/-- **C4 (counterexample).** On a zero-total-distance (duplicated-point)
polyline with three weather samples, the deduplicated concatenation of the
emitted position runs has five points: it is not a subsequence of the
three-point polyline at all, let alone a contiguous sub-path. -/
theorem c4_counterexample :
    2 ≤ wps3.length ∧
    ¬ List.Sublist (joinDedup ((createRouteSegmentsR g3 wps3 7200 0).map
        (fun s => s.positions))) g3 := by
  constructor
  · norm_num [wps3]
  · have hjoin : joinDedup ((createRouteSegmentsR g3 wps3 7200 0).map
        (fun s => s.positions)) =
        [((0 : ℝ), (0 : ℝ)), (0, 0), (0, 0), (0, 0), (0, 0)] := by
      norm_num [createRouteSegmentsR, createRouteSegments, pairSegments, g3, wps3, wpR,
        segmentsForPair, resolvePairIndices, jsFindIndex, cumulativeDistances, cumAux,
        haversineDistance_zero, joinDedup, dedupAppend, getColorForWeather,
        Int.toNat_ofNat]
      have ht3 : ((3 : ℤ)).toNat = 3 := rfl
      rw [ht3]
      norm_num [dedupAppend]
    rw [hjoin]
    intro h
    have := h.length_le
    simp [g3] at this

/-- Witness for C8 at the empty weather list. -/
theorem c8_fallback_witness :
    createRouteSegmentsR [((0 : ℝ), 0), (0, 1)] [] 60 0 =
      [neutralSegment [((0 : ℝ), 0), (0, 1)]] ∧
    createRouteSegmentsR [((0 : ℝ), 0), (0, 1)] [] 60 0 ≠ [] :=
  ⟨(c8_fallback [((0 : ℝ), 0), (0, 1)] [] 60 0).1 (by simp),
   (c8_fallback [((0 : ℝ), 0), (0, 1)] [] 60 0).2.2⟩

end TripWeather
